import Mathlib

/-!
Verification of the offer-aggregation and notification core of the Car_parser
repository (`src/bot/services/parser.py` and `src/bot/services/poller.py`).

The Python code is shallowly embedded: pure parsing helpers become Lean
functions over `String`/`List Char`, datetimes become civil-field records with
an epoch-seconds conversion, the module-level mutable state of the poller
becomes an explicit `PollerState` threaded through a cycle step function, and
code that can raise becomes `Option`-valued.  Network and Telegram delivery are
modelled as inputs (fetch results, delivery-success oracles) and outputs
(emitted notification events).
-/

/-! ## String helpers

Core `String` functions (`splitOn`, `trim`, `replace`, …) are implemented on
byte positions and do not reduce in the kernel, so the Python string
operations used by the parser are re-implemented here on `List Char` by
structural recursion. -/

/-- Split a character list at every occurrence of the separator character,
keeping empty segments — the behaviour of Python `str.split(sep)` for a
one-character separator. -/
def splitChar (sep : Char) : List Char → List (List Char)
  | [] => [[]]
  | c :: rest =>
    let r := splitChar sep rest
    if c == sep then [] :: r
    else
      match r with
      | [] => [[c]]
      | h :: t => (c :: h) :: t

/-- Split a character list at every maximal run boundary of characters
satisfying `p`, keeping empty segments. -/
def splitPred (p : Char → Bool) : List Char → List (List Char)
  | [] => [[]]
  | c :: rest =>
    let r := splitPred p rest
    if p c then [] :: r
    else
      match r with
      | [] => [[c]]
      | h :: t => (c :: h) :: t

/-- Whitespace in the sense of Python `str.strip()` / `str.split()`:
ASCII whitespace plus the no-break space that the parser also scrubs. -/
def isPyWs (c : Char) : Bool :=
  c == ' ' || c == '\t' || c == '\n' || c == '\r' || c == '\x0b' || c == '\x0c' ||
    c == '\u00A0'

/-- Remove leading and trailing whitespace, as Python `str.strip()`. -/
def trimL (l : List Char) : List Char :=
  ((l.dropWhile isPyWs).reverse.dropWhile isPyWs).reverse

/-- Python `text.strip()`. -/
def pyStrip (s : String) : String := ⟨trimL s.data⟩

/-- Python `text.split(sep)` for a one-character separator. -/
def pySplitChar (sep : Char) (s : String) : List String :=
  (splitChar sep s.data).map (fun l => ⟨l⟩)

/-- Python `text.split()` (split on whitespace runs, dropping empty parts). -/
def pySplitWs (s : String) : List String :=
  ((splitPred isPyWs s.data).filter (fun l => !l.isEmpty)).map (fun l => ⟨l⟩)

/-- Worker for `pyRemove`: delete every (leftmost, non-overlapping) occurrence
of `pat`; `skip` counts characters of a just-matched occurrence still to be
dropped. -/
def removeSubGo (pat : List Char) : Nat → List Char → List Char
  | _, [] => []
  | s+1, _ :: rest => removeSubGo pat s rest
  | 0, c :: rest =>
    if pat ≠ [] && pat.isPrefixOf (c :: rest) then removeSubGo pat (pat.length - 1) rest
    else c :: removeSubGo pat 0 rest

/-- Python `text.replace(pat, "")` — every occurrence of `pat` deleted. -/
def pyRemove (pat : String) (s : String) : String := ⟨removeSubGo pat.data 0 s.data⟩

/-- Worker for `pyContains`. -/
def containsSubL (pat : List Char) : List Char → Bool
  | [] => pat.isEmpty
  | c :: rest => pat.isPrefixOf (c :: rest) || containsSubL pat rest

/-- Python `pat in s` (substring containment). -/
def pyContains (s pat : String) : Bool := containsSubL pat.data s.data

/-- Python `s.startswith(pre)`. -/
def pyStartsWith (s pre : String) : Bool := pre.data.isPrefixOf s.data


/-! ## Civil datetimes

Models the UTC datetimes of `datetime.strptime` / `datetime.strftime` and of
the `manual_cars.auction_end` column: a record of civil fields plus a
conversion to seconds since the Unix epoch (proleptic Gregorian calendar,
exactly the arithmetic of Python `datetime` subtraction in UTC). -/

structure CivilDT where
  year : Nat
  month : Nat
  day : Nat
  hour : Nat
  minute : Nat
  second : Nat
deriving DecidableEq, Repr

/-- Gregorian leap year. -/
def isLeapYear (y : Nat) : Bool := (y % 4 == 0 && y % 100 != 0) || y % 400 == 0

/-- Number of days in a month. -/
def daysInMonth (y m : Nat) : Nat :=
  if m == 2 then (if isLeapYear y then 29 else 28)
  else if m == 4 || m == 6 || m == 9 || m == 11 then 30
  else 31

/-- Days in all years before year `y` (year 1 is the first year). -/
def daysBeforeYear (y : Nat) : Nat :=
  365 * (y - 1) + (y - 1) / 4 + (y - 1) / 400 - (y - 1) / 100

/-- Days in the months of year `y` strictly before month `m`. -/
def daysBeforeMonth (y m : Nat) : Nat :=
  (List.range (m - 1)).foldl (fun a i => a + daysInMonth y (i + 1)) 0

/-- Seconds since 1970-01-01 00:00:00 UTC (719162 is the number of days from
0001-01-01 to 1970-01-01). -/
def toEpoch (dt : CivilDT) : Int :=
  ((daysBeforeYear dt.year + daysBeforeMonth dt.year dt.month + (dt.day - 1) : Nat) : Int)
      * 86400 - 719162 * 86400
    + dt.hour * 3600 + dt.minute * 60 + dt.second

/-- Left-pad a numeral to two digits, as the strftime directives
`%m %d %H %M %S` do. -/
def pad2 (n : Nat) : String := if n < 10 then "0" ++ toString n else toString n

/-- Models `dt.strftime("%Y-%m-%d %H:%M:%S")` (`poller.py` line 62). -/
def strftimeDT (dt : CivilDT) : String :=
  toString dt.year ++ "-" ++ pad2 dt.month ++ "-" ++ pad2 dt.day ++ " " ++
    pad2 dt.hour ++ ":" ++ pad2 dt.minute ++ ":" ++ pad2 dt.second

/-- Numeric value of a digit character. -/
def digitVal (c : Char) : Nat := c.toNat - 48

/-- The character is a digit 1-9 (the regex class of an unpadded field). -/
def isDigit19 (c : Char) : Bool := c.isDigit && c != '0'

/-- The `%Y` directive of CPython `_strptime`: exactly four digits. -/
def matchYear : List Char → Option (Nat × List Char)
  | a :: b :: c :: d :: rest =>
    if a.isDigit && b.isDigit && c.isDigit && d.isDigit then
      some (digitVal a * 1000 + digitVal b * 100 + digitVal c * 10 + digitVal d, rest)
    else none
  | _ => none

/-- The `%m` directive: the regex alternatives `1[0-2]`, `0[1-9]`, `[1-9]`
tried in order (a longer alternative never steals a globally viable parse,
because the character after the month is a dash, never a digit). -/
def matchMonth : List Char → Option (Nat × List Char)
  | c1 :: c2 :: rest =>
    if c1 == '1' && c2.isDigit && c2.toNat ≤ 50 then some (10 + digitVal c2, rest)
    else if c1 == '0' && isDigit19 c2 then some (digitVal c2, rest)
    else if isDigit19 c1 then some (digitVal c1, c2 :: rest)
    else none
  | [c1] => if isDigit19 c1 then some (digitVal c1, []) else none
  | [] => none

/-- The `%d` directive: the regex alternatives `3[0-1]`, `[1-2]\d`, `0[1-9]`,
`[1-9]`, `' '[1-9]` — a space-padded single digit is accepted. -/
def matchDay : List Char → Option (Nat × List Char)
  | c1 :: c2 :: rest =>
    if c1 == '3' && (c2 == '0' || c2 == '1') then some (30 + digitVal c2, rest)
    else if (c1 == '1' || c1 == '2') && c2.isDigit then
      some (digitVal c1 * 10 + digitVal c2, rest)
    else if c1 == '0' && isDigit19 c2 then some (digitVal c2, rest)
    else if isDigit19 c1 then some (digitVal c1, c2 :: rest)
    else if c1 == ' ' && isDigit19 c2 then some (digitVal c2, rest)
    else none
  | [c1] => if isDigit19 c1 then some (digitVal c1, []) else none
  | [] => none

/-- The `%H` directive: `2[0-3]`, `[0-1]\d`, `\d`. -/
def matchHour : List Char → Option (Nat × List Char)
  | c1 :: c2 :: rest =>
    if c1 == '2' && c2.isDigit && c2.toNat ≤ 51 then some (20 + digitVal c2, rest)
    else if (c1 == '0' || c1 == '1') && c2.isDigit then
      some (digitVal c1 * 10 + digitVal c2, rest)
    else if c1.isDigit then some (digitVal c1, c2 :: rest)
    else none
  | [c1] => if c1.isDigit then some (digitVal c1, []) else none
  | [] => none

/-- The `%M` directive: `[0-5]\d`, `\d`. -/
def matchMinute : List Char → Option (Nat × List Char)
  | c1 :: c2 :: rest =>
    if c1.isDigit && c1.toNat ≤ 53 && c2.isDigit then
      some (digitVal c1 * 10 + digitVal c2, rest)
    else if c1.isDigit then some (digitVal c1, c2 :: rest)
    else none
  | [c1] => if c1.isDigit then some (digitVal c1, []) else none
  | [] => none

/-- The `%S` directive: `6[0-1]`, `[0-5]\d`, `\d` — the regex accepts the
leap seconds 60 and 61, which the `datetime` constructor then rejects. -/
def matchSecond : List Char → Option (Nat × List Char)
  | c1 :: c2 :: rest =>
    if c1 == '6' && (c2 == '0' || c2 == '1') then some (60 + digitVal c2, rest)
    else if c1.isDigit && c1.toNat ≤ 53 && c2.isDigit then
      some (digitVal c1 * 10 + digitVal c2, rest)
    else if c1.isDigit then some (digitVal c1, c2 :: rest)
    else none
  | [c1] => if c1.isDigit then some (digitVal c1, []) else none
  | [] => none

/-- A single literal character of the format. -/
def matchLit (c : Char) : List Char → Option (List Char)
  | x :: rest => if x == c then some rest else none
  | [] => none

/-- Whitespace in the format matches one or more whitespace characters
(CPython substitutes the literal space with the regex `\s+`). -/
def matchWs : List Char → Option (List Char)
  | x :: rest => if isPyWs x then some (rest.dropWhile isPyWs) else none
  | [] => none

/-- Models `datetime.strptime(text, "%Y-%m-%d %H:%M:%S")` as CPython's
`_strptime` does it: the format compiles to the anchored regex
`(?P<Y>\d\d\d\d)-(?P<m>1[0-2]|0[1-9]|[1-9])-(?P<d>3[0-1]|[1-2]\d|0[1-9]|[1-9]| [1-9])\s+(?P<H>2[0-3]|[0-1]\d|\d):(?P<M>[0-5]\d|\d):(?P<S>6[0-1]|[0-5]\d|\d)`
which must consume the whole string, and the captured fields then go through
the `datetime` constructor, which rejects year 0, a day beyond the month's
length, and the leap seconds 60-61.  Any failure raises `ValueError`,
modelled as `none`.  (Sequential greedy matching in regex-alternative order
is exact here: each numeric field is followed by a dash, a colon, whitespace
or the end of the string, never by a digit, so a longer alternative never
steals a parse that a shorter one would complete.) -/
def strptimeDT (s : String) : Option CivilDT := do
  let (y, r1) ← matchYear s.data
  let r2 ← matchLit '-' r1
  let (m, r3) ← matchMonth r2
  let r4 ← matchLit '-' r3
  let (d, r5) ← matchDay r4
  let r6 ← matchWs r5
  let (h, r7) ← matchHour r6
  let r8 ← matchLit ':' r7
  let (mi, r9) ← matchMinute r8
  let r10 ← matchLit ':' r9
  let (sec, r11) ← matchSecond r10
  if r11.isEmpty && 1 ≤ y && d ≤ daysInMonth y m && sec ≤ 59 then
    some ⟨y, m, d, h, mi, sec⟩
  else none

/-! ## `src/bot/services/parser.py` -/

/-- The urgent-tier threshold `TWELVE_HOURS = 12 * 3600` (`poller.py` line 16). -/
def TWELVE_HOURS : Nat := 12 * 3600

/-- The favorite-tier threshold `THREE_HOURS = 3 * 3600` (`poller.py` line 17). -/
def THREE_HOURS : Nat := 3 * 3600

/-- The `OfferItem` dataclass (`parser.py` lines 55-65). -/
structure OfferItem where
  id : String
  title : String
  year : String
  mileage : String
  auction_end : String
  url : String
  image_url : String
  source : String
  auction_end_seconds : Nat
deriving DecidableEq, Repr

/-- Models `_parse_auction_end` (`parser.py` lines 43-52): parse the stripped
text in the fixed format; on success return `max(0, end - now)` seconds, on
failure the sentinel `999999`.  `now` is the current wall clock as epoch
seconds. -/
def parseAuctionEnd (now : Int) (text : String) : Nat :=
  match strptimeDT (pyStrip text) with
  | some dt => (max 0 (toEpoch dt - now)).toNat
  | none => 999999

/-- One `.offer-card` element of a listing page, reduced to the pieces
`_parse_cards` reads: the stripped text of the optional `h3`, the stripped
text of the optional `p.auction-id`, the `(label, value)` text pairs of the
`.offer-details` block (`none` value when the label has no sibling value
element), the optional detail-link `href` and the optional slider image
`src`. -/
structure Card where
  h3 : Option String
  auctionId : Option String
  labels : List (String × Option String)
  linkHref : Option String
  imgSrc : Option String
deriving DecidableEq, Repr

/-- Models the lot-id extraction of `_parse_cards` (`parser.py` lines 91-96):
`lot_id = ""` unless the auction-id element exists and its text contains a
colon, in which case `text.split(":")[1].strip().split()[0]`; the final `[0]`
raises `IndexError` (modelled as `none`) when the segment after the colon is
blank. -/
def computeLotId (auctionId : Option String) : Option String :=
  match auctionId with
  | none => some ""
  | some text =>
    if pyContains text ":" then
      match pySplitWs (pyStrip ((pySplitChar ':' text).getD 1 "")) with
      | [] => none
      | w :: _ => some w
    else some ""

/-- Models the label loop of `_parse_cards` (`parser.py` lines 98-114):
fold over the `(label, value)` pairs updating `(year, mileage, auction_end)`;
pairs without a value element are skipped. -/
def procLabels (labels : List (String × Option String)) : String × String × String :=
  labels.foldl
    (fun acc lv =>
      match lv.2 with
      | none => acc
      | some valueText =>
        if pyContains lv.1 "Rejestracja" then (valueText, acc.2.1, acc.2.2)
        else if pyContains lv.1 "Przebieg" then
          (acc.1, pyStrip (pyRemove "\u00A0" (pyRemove " km" valueText)), acc.2.2)
        else if lv.1 == "Data zakończenia" then (acc.1, acc.2.1, valueText)
        else acc)
    ("", "", "")

/-- Models one iteration of the card loop of `_parse_cards` (`parser.py`
lines 85-134): `some none` when the card is skipped for lack of an `h3`,
`none` when the lot-id extraction raises, `some (some item)` otherwise. -/
def parseCard (now : Int) (source : String) (c : Card) : Option (Option OfferItem) :=
  match c.h3 with
  | none => some none
  | some title =>
    match computeLotId c.auctionId with
    | none => none
    | some lotId =>
      let ymd := procLabels c.labels
      let auctionEnd := ymd.2.2
      some (some
        { id := lotId
          title := title
          year := ymd.1
          mileage := ymd.2.1
          auction_end := auctionEnd
          url := c.linkHref.getD ""
          image_url := match c.imgSrc with
            | some s => if s == "" then "" else s
            | none => ""
          source := source
          auction_end_seconds := parseAuctionEnd now auctionEnd })

/-- Models `_parse_cards` (`parser.py` lines 80-136) over the card list of one
page; `none` propagates a raised `IndexError`. -/
def parseCards (now : Int) (source : String) : List Card → Option (List OfferItem)
  | [] => some []
  | c :: rest =>
    match parseCard now source c, parseCards now source rest with
    | some r, some rs =>
      some (match r with
        | none => rs
        | some o => o :: rs)
    | _, _ => none

/-- Outcome of one adapter's `client.get`: an exception gathered by
`asyncio.gather(..., return_exceptions=True)`, or an HTTP response with a
status code and a parsed page body (as cards). -/
inductive FetchResult where
  | exn
  | resp (status : Nat) (cards : List Card)
deriving DecidableEq, Repr

/-- An adapter call failed: exception or non-200 status (`parser.py`
lines 147-153). -/
def isFailure : FetchResult → Bool
  | .exn => true
  | .resp status _ => status != 200

/-- Models the accumulation loop of `fetch_offers` (`parser.py` lines
145-154): per-source results in configured order; exceptions and non-200
responses contribute nothing; a raising `_parse_cards` propagates (`none`). -/
def gatherOffers (now : Int) : List (FetchResult × String) → Option (List OfferItem)
  | [] => some []
  | (.exn, _) :: rest => gatherOffers now rest
  | (.resp status cards, source) :: rest =>
    if status != 200 then gatherOffers now rest
    else
      match parseCards now source cards, gatherOffers now rest with
      | some os, some more => some (os ++ more)
      | _, _ => none

/-- Worker for `dedupOffers` with the accumulated `seen` id set (`parser.py`
lines 157-162): keep a record iff its id is non-empty and not seen yet. -/
def dedupGo (seen : List String) : List OfferItem → List OfferItem
  | [] => []
  | o :: rest =>
    if o.id ≠ "" && !(seen.contains o.id) then o :: dedupGo (o.id :: seen) rest
    else dedupGo seen rest

/-- Models the dedup block of `fetch_offers` (`parser.py` lines 156-162). -/
def dedupOffers (l : List OfferItem) : List OfferItem := dedupGo [] l

/-- The sort key order of `fetch_offers` / `poll_new_offers`: ascending
`auction_end_seconds`. -/
def offerLE (a b : OfferItem) : Prop := a.auction_end_seconds ≤ b.auction_end_seconds

instance : DecidableRel offerLE := fun a b => Nat.decLe a.auction_end_seconds b.auction_end_seconds

instance : IsTotal OfferItem offerLE :=
  ⟨fun a b => Nat.le_total a.auction_end_seconds b.auction_end_seconds⟩

instance : IsTrans OfferItem offerLE := ⟨fun _ _ _ => Nat.le_trans⟩

/-- Models `list.sort(key=lambda o: o.auction_end_seconds)` (`parser.py`
line 165, `poller.py` lines 172 and 207).  Python `list.sort` is a stable
ascending sort; the output of a stable sort is uniquely determined by the
input, so the structural `insertionSort` is extensionally the same
function. -/
def sortOffers (l : List OfferItem) : List OfferItem := List.insertionSort offerLE l

/-- Models `fetch_offers` (`parser.py` lines 139-166): gather per-source
results in configured order, deduplicate by id, sort ascending by
`auction_end_seconds`. -/
def fetchOffers (now : Int) (results : List (FetchResult × String)) : Option (List OfferItem) :=
  (gatherOffers now results).map (fun all => sortOffers (dedupOffers all))

/-! ## `src/bot/services/poller.py` -/

/-- The columns of the `manual_cars` table that `_load_manual_cars` reads
(`bot/db/models.py` lines 65-83); `auction_end` is a UTC datetime. -/
structure ManualCar where
  id : Nat
  title : String
  year : String
  mileage : String
  auction_end : CivilDT
  image_url : Option String
  url : Option String
  is_active : Bool
deriving DecidableEq, Repr

/-- Models `_load_manual_cars` (`poller.py` lines 38-68): a failed DB read
(`dbResult = none`) degrades to an empty list; otherwise the active rows are
converted to `OfferItem`s with `remainingSeconds = max(0, end - now)`, rows
whose countdown has already reached 0 are skipped, the id is prefixed with
`manual_` and the source label is the manager tag. -/
def loadManualCars (now : Int) (dbResult : Option (List ManualCar)) : List OfferItem :=
  match dbResult with
  | none => []
  | some cars =>
    (cars.filter (fun car => car.is_active)).filterMap (fun car =>
      let secs := (max 0 (toEpoch car.auction_end - now)).toNat
      if secs ≤ 0 then none
      else some
        { id := "manual_" ++ toString car.id
          title := car.title
          year := car.year
          mileage := car.mileage
          auction_end := strftimeDT car.auction_end
          url := car.url.getD ""
          image_url := car.image_url.getD ""
          source := "Менеджер"
          auction_end_seconds := secs })

/-- A row of the `favorites` table as `_check_favorites_3h` reads it
(`bot/db/models.py` lines 28-43). -/
structure Favorite where
  user_id : Int
  offer_id : String
deriving DecidableEq, Repr

/-- The `_notified_3h` key `f"{fav.user_id}:{fav.offer_id}"` (`poller.py`
line 131). -/
def favKey (u : Int) (i : String) : String := toString u ++ ":" ++ i

/-- One notification event as observed at the Telegram boundary: a 12-hour
alert for an offer with one delivery attempt per subscribed chat (`poller.py`
lines 217-222), or a 3-hour favorite alert to a single user (`poller.py`
lines 139-153).  The `Bool` records whether delivery succeeded; the code
logs and swallows delivery failures. -/
inductive Notif where
  | urgentAlert (offerId : String) (deliveries : List (Int × Bool))
  | favAlert (userId : Int) (offerId : String) (delivered : Bool)
deriving DecidableEq, Repr

/-- The module-level mutable state of `poller.py` (lines 22-35): `_seen_ids`,
`cached_offers`, `_notified_12h` and `_notified_3h`.  The Python sets are
lists here; only membership is ever observed. -/
structure PollerState where
  seenIds : List String
  cachedOffers : List OfferItem
  notified12h : List String
  notified3h : List String
deriving DecidableEq, Repr

/-- The state at process start: every set empty, no cached offers. -/
def initState : PollerState := ⟨[], [], [], []⟩

/-- Set-flavoured insert for the list-modelled id sets. -/
def insertId (s : List String) (i : String) : List String :=
  if s.contains i then s else i :: s

/-- Models the 12-hour notification loop of `poll_new_offers` (`poller.py`
lines 217-222): for each offer below `TWELVE_HOURS` whose id is not yet in
`_notified_12h`, first add the id, then attempt delivery to every subscriber;
`okU chat offerId` tells whether the attempt to that chat succeeds. -/
def notify12Go (okU : Int → String → Bool) (subs : List Int) :
    List String → List OfferItem → List String × List Notif
  | notified, [] => (notified, [])
  | notified, o :: rest =>
    if o.auction_end_seconds < TWELVE_HOURS && !(notified.contains o.id) then
      ((notify12Go okU subs (o.id :: notified) rest).1,
        .urgentAlert o.id (subs.map (fun c => (c, okU c o.id))) ::
          (notify12Go okU subs (o.id :: notified) rest).2)
    else notify12Go okU subs notified rest

/-- Models `offers_map = {o.id: o for o in cached_offers}` followed by
`offers_map.get(fav.offer_id)` (`poller.py` lines 114 and 125): a Python dict
comprehension keeps the last record for a duplicated key. -/
def offersMapGet (cached : List OfferItem) (i : String) : Option OfferItem :=
  cached.reverse.find? (fun o => o.id == i)

/-- The complement of the three `continue` guards of the favorites loop
(`poller.py` lines 125-133): the favorite's offer is in the snapshot, its
countdown is under `THREE_HOURS`, and the pair key is not yet in
`_notified_3h`. -/
def favAlertable (cached : List OfferItem) (notified : List String) (f : Favorite) : Bool :=
  match offersMapGet cached f.offer_id with
  | none => false
  | some o =>
    decide (o.auction_end_seconds < THREE_HOURS) &&
      !(notified.contains (favKey f.user_id f.offer_id))

/-- Models the favorites loop of `_check_favorites_3h` (`poller.py` lines
124-153): a favorite whose offer is missing, not yet under `THREE_HOURS`, or
already recorded is skipped; otherwise the pair key is first added to
`_notified_3h` and then (only when `notify`) delivery to that user is
attempted. -/
def checkFavGo (okF : Int → String → Bool) (cached : List OfferItem) (notify : Bool) :
    List String → List Favorite → List String × List Notif
  | notified, [] => (notified, [])
  | notified, f :: rest =>
    if favAlertable cached notified f then
      if notify then
        ((checkFavGo okF cached notify (favKey f.user_id f.offer_id :: notified) rest).1,
          .favAlert f.user_id f.offer_id (okF f.user_id f.offer_id) ::
            (checkFavGo okF cached notify (favKey f.user_id f.offer_id :: notified) rest).2)
      else checkFavGo okF cached notify (favKey f.user_id f.offer_id :: notified) rest
    else checkFavGo okF cached notify notified rest

/-- Models `_check_favorites_3h` (`poller.py` lines 109-153): no-op on an
empty snapshot; a failed favorites read (`favsResult = none`) is logged and
returns without marking or sending. -/
def checkFav3h (okF : Int → String → Bool) (cached : List OfferItem) (notified3 : List String)
    (favsResult : Option (List Favorite)) (notify : Bool) : List String × List Notif :=
  if cached.isEmpty then (notified3, [])
  else
    match favsResult with
    | none => (notified3, [])
    | some favs => checkFavGo okF cached notify notified3 favs

/-- Models one steady-state iteration of the `while True` loop of
`poll_new_offers` (`poller.py` lines 195-227).  `fetched = none` is a raising
`_fetch_offers_safe` — the loop `continue`s, leaving every piece of state
untouched and sending nothing.  Otherwise manual cars are merged in, the list
is sorted, the snapshot is replaced wholesale, seen ids are added, and both
notification tiers run. -/
def pollCycle (st : PollerState) (fetched : Option (List OfferItem))
    (manualDb : Option (List ManualCar)) (now : Int) (favsResult : Option (List Favorite))
    (subs : List Int) (okU okF : Int → String → Bool) : PollerState × List Notif :=
  match fetched with
  | none => (st, [])
  | some f =>
    let offers := sortOffers (f ++ loadManualCars now manualDb)
    let seen := offers.foldl (fun s o => insertId s o.id) st.seenIds
    let r12 := notify12Go okU subs st.notified12h offers
    let r3 := checkFav3h okF offers st.notified3h favsResult true
    (⟨seen, offers, r12.1, r3.1⟩, r12.2 ++ r3.2)

/-- Models the warm-start (first) pass of `poll_new_offers` (`poller.py`
lines 165-193), starting from the initial module state: populate the snapshot
and `_seen_ids`, pre-mark every non-manual offer already below `TWELVE_HOURS`
in `_notified_12h` (manual offers are deliberately not pre-marked), and run
the favorites check with `notify=False` so it only populates `_notified_3h`.
A raising fetch (`fetched = none`) aborts the whole pass, leaving the initial
state.  No notification is delivered either way. -/
def warmStart (fetched : Option (List OfferItem)) (manualDb : Option (List ManualCar))
    (now : Int) (favsResult : Option (List Favorite)) (okF : Int → String → Bool) :
    PollerState × List Notif :=
  match fetched with
  | none => (initState, [])
  | some f =>
    let offers := sortOffers (f ++ loadManualCars now manualDb)
    let seen := (offers.filter (fun o => o.id ≠ "")).map (fun o => o.id)
    let n12 := (offers.filter (fun o =>
        o.auction_end_seconds < TWELVE_HOURS && !(pyStartsWith o.id "manual_"))).map
      (fun o => o.id)
    let r3 := checkFav3h okF offers [] favsResult false
    (⟨seen, offers, n12, r3.1⟩, r3.2)

/-- The external inputs of one poll cycle: fetch outcome, manual-cars read,
wall clock, favorites read, current subscriber set, and the delivery-success
oracles of the two tiers. -/
structure CycleInput where
  fetched : Option (List OfferItem)
  manualDb : Option (List ManualCar)
  now : Int
  favsResult : Option (List Favorite)
  subs : List Int
  okU : Int → String → Bool
  okF : Int → String → Bool

/-- One cycle driven by a `CycleInput`. -/
def stepCycle (st : PollerState) (inp : CycleInput) : PollerState × List Notif :=
  pollCycle st inp.fetched inp.manualDb inp.now inp.favsResult inp.subs inp.okU inp.okF

/-- Any number of consecutive poll cycles; emissions are concatenated in
order. -/
def runCycles (st : PollerState) : List CycleInput → PollerState × List Notif
  | [] => (st, [])
  | inp :: rest =>
    let r := stepCycle st inp
    let rr := runCycles r.1 rest
    (rr.1, r.2 ++ rr.2)

/-- The event is an urgent-tier alert for offer `i`. -/
def isUrgentFor (i : String) : Notif → Bool
  | .urgentAlert j _ => j == i
  | _ => false

/-- The event is a favorite-tier alert for the pair `(u, i)`. -/
def isFavFor (u : Int) (i : String) : Notif → Bool
  | .favAlert v j _ => v == u && j == i
  | _ => false

/-- Number of urgent-tier alerts for offer `i` in an emission trace. -/
def cntU (i : String) (ems : List Notif) : Nat := ems.countP (isUrgentFor i)

/-- Number of favorite-tier alerts for the pair `(u, i)` in an emission
trace. -/
def cntF (u : Int) (i : String) (ems : List Notif) : Nat := ems.countP (isFavFor u i)

/-! ## Library of facts about the embedded functions -/

/-- Bridge between the executable `List.contains` of the embedded sets and
membership. -/
theorem contains_iff {s : List String} {i : String} : s.contains i = true ↔ i ∈ s :=
  List.elem_iff

theorem sortOffers_sorted (l : List OfferItem) : (sortOffers l).Sorted offerLE :=
  List.sorted_insertionSort offerLE l

theorem sortOffers_perm (l : List OfferItem) : List.Perm (sortOffers l) l :=
  List.perm_insertionSort offerLE l

theorem mem_sortOffers {l : List OfferItem} {o : OfferItem} : o ∈ sortOffers l ↔ o ∈ l := by
  unfold sortOffers
  exact List.mem_insertionSort offerLE

/-- Stability of the snapshot sort: a filter that only keeps records of one
sort-key class is untouched by sorting. -/
theorem sortOffers_filter_stable (p : OfferItem → Bool)
    (hp : ∀ a b, p a = true → p b = true → offerLE a b) (l : List OfferItem) :
    (sortOffers l).filter p = l.filter p := by
  have hpair : (l.filter p).Pairwise offerLE := by
    apply List.pairwise_of_forall_mem_list
    intro a ha b hb
    exact hp a b (List.of_mem_filter ha) (List.of_mem_filter hb)
  have hsub : List.Sublist (l.filter p) (sortOffers l) :=
    List.sublist_insertionSort hpair (List.filter_sublist l)
  have hsub2 : List.Sublist (l.filter p) ((sortOffers l).filter p) := by
    have h := hsub.filter p
    have heq : (l.filter p).filter p = l.filter p := by
      rw [List.filter_filter]
      exact List.filter_congr (fun x _ => Bool.and_self (p x))
    rwa [heq] at h
  have hperm : List.Perm ((sortOffers l).filter p) (l.filter p) := (sortOffers_perm l).filter p
  exact (hsub2.eq_of_length hperm.length_eq.symm).symm

/-- Records of equal `auction_end_seconds` keep their original relative order
through the snapshot sort. -/
theorem sortOffers_filter_key (l : List OfferItem) (k : Nat) :
    (sortOffers l).filter (fun o => o.auction_end_seconds == k) =
      l.filter (fun o => o.auction_end_seconds == k) := by
  apply sortOffers_filter_stable
  intro a b ha hb
  simp only [beq_iff_eq] at ha hb
  simp [offerLE, ha, hb]

/-- Every record the dedup loop keeps has a non-empty, not-yet-seen id, and is
the first record of the input with that id. -/
theorem dedupGo_mem_spec : ∀ (seen : List String) (l : List OfferItem) (o : OfferItem),
    o ∈ dedupGo seen l →
      o.id ≠ "" ∧ o.id ∉ seen ∧ l.find? (fun x => x.id == o.id) = some o := by
  intro seen l
  induction l generalizing seen with
  | nil => intro o h; simp [dedupGo] at h
  | cons x rest ih =>
    intro o h
    rw [dedupGo] at h
    split at h
    next hx =>
      have hx' : x.id ≠ "" ∧ x.id ∉ seen := by
        simp only [Bool.and_eq_true, decide_eq_true_eq, Bool.not_eq_true'] at hx
        refine ⟨hx.1, fun hmem => ?_⟩
        have hc := contains_iff.mpr hmem
        rw [hx.2] at hc
        exact Bool.noConfusion hc
      rcases List.mem_cons.mp h with rfl | hmem
      · exact ⟨hx'.1, hx'.2, by rw [List.find?_cons_of_pos _ (by simp)]⟩
      · obtain ⟨hne, hnotin, hfind⟩ := ih (x.id :: seen) o hmem
        have hxo : x.id ≠ o.id := fun hcontr => hnotin (hcontr ▸ List.mem_cons_self _ _)
        refine ⟨hne, fun hmem2 => hnotin (List.mem_cons_of_mem _ hmem2), ?_⟩
        rw [List.find?_cons_of_neg _ (by simp [hxo])]
        exact hfind
    next hx =>
      obtain ⟨hne, hnotin, hfind⟩ := ih seen o h
      have hx' : x.id = "" ∨ x.id ∈ seen := by
        by_contra hcon
        push_neg at hcon
        refine hx ?_
        have h2 : seen.contains x.id = false := by
          cases hcb : seen.contains x.id
          · rfl
          · exact absurd (contains_iff.mp hcb) hcon.2
        rw [h2, decide_eq_true hcon.1]
        rfl
      have hxo : x.id ≠ o.id := by
        intro hcontr
        rcases hx' with h1 | h1
        · exact hne (hcontr ▸ h1)
        · exact hnotin (hcontr ▸ h1)
      refine ⟨hne, hnotin, ?_⟩
      rw [List.find?_cons_of_neg _ (by simp [hxo])]
      exact hfind

/-- The dedup loop keeps at most one record per id, and none whose id was
already seen. -/
theorem dedupGo_countP (i : String) : ∀ (seen : List String) (l : List OfferItem),
    (dedupGo seen l).countP (fun o => o.id == i) ≤ 1 ∧
      (i ∈ seen → (dedupGo seen l).countP (fun o => o.id == i) = 0) := by
  intro seen l
  induction l generalizing seen with
  | nil => simp [dedupGo]
  | cons x rest ih =>
    rw [dedupGo]
    split
    next hx =>
      rcases ih (x.id :: seen) with ⟨hle, hzero⟩
      by_cases hxi : x.id = i
      · subst hxi
        have h0 : (dedupGo (x.id :: seen) rest).countP (fun o => o.id == x.id) = 0 :=
          hzero (List.mem_cons_self _ _)
        constructor
        · rw [List.countP_cons, h0]
          simp
        · intro hi
          exfalso
          simp only [Bool.and_eq_true, decide_eq_true_eq, Bool.not_eq_true'] at hx
          have hc := contains_iff.mpr hi
          rw [hx.2] at hc
          exact Bool.noConfusion hc
      · constructor
        · rw [List.countP_cons]
          simp only [hxi, beq_iff_eq, if_false, Nat.add_zero]
          exact hle
        · intro hi
          rw [List.countP_cons]
          simp only [hxi, beq_iff_eq, if_false, Nat.add_zero]
          exact hzero (List.mem_cons_of_mem _ hi)
    next hx => exact ⟨(ih seen).1, fun hi => (ih seen).2 hi⟩

/-- A record with a non-empty, not-yet-seen id that occurs in the input
survives dedup (as some record with that id). -/
theorem dedupGo_exists (i : String) : ∀ (seen : List String) (l : List OfferItem),
    i ≠ "" → i ∉ seen → (∃ x ∈ l, x.id = i) → ∃ o ∈ dedupGo seen l, o.id = i := by
  intro seen l
  induction l generalizing seen with
  | nil => rintro _ _ ⟨x, hx, _⟩; exact absurd hx (List.not_mem_nil x)
  | cons x rest ih =>
    rintro hne hnotin ⟨w, hw, hwid⟩
    rw [dedupGo]
    by_cases hxi : x.id = i
    · have hguard : (x.id ≠ "" && !(seen.contains x.id)) = true := by
        have h2 : seen.contains x.id = false := by
          cases hcb : seen.contains x.id
          · rfl
          · exact absurd (contains_iff.mp hcb) (hxi ▸ hnotin)
        rw [h2, decide_eq_true (hxi ▸ hne)]
        rfl
      rw [if_pos hguard]
      exact ⟨x, List.mem_cons_self _ _, hxi⟩
    · have hw' : w ∈ rest := by
        rcases List.mem_cons.mp hw with rfl | h
        · exact absurd hwid hxi
        · exact h
      split
      next hguard =>
        obtain ⟨o, ho, hoid⟩ :=
          ih (x.id :: seen) hne (by simp [hxi, hnotin, Ne.symm]) ⟨w, hw', hwid⟩
        exact ⟨o, List.mem_cons_of_mem _ ho, hoid⟩
      next hguard =>
        exact ih seen hne hnotin ⟨w, hw', hwid⟩

/-- Ids already notified stay notified through the urgent loop. -/
theorem notify12Go_mono (okU : Int → String → Bool) (subs : List Int) :
    ∀ (notified : List String) (offers : List OfferItem) (x : String),
      x ∈ notified → x ∈ (notify12Go okU subs notified offers).1 := by
  intro notified offers
  induction offers generalizing notified with
  | nil => intro x hx; simpa [notify12Go] using hx
  | cons o rest ih =>
    intro x hx
    rw [notify12Go]
    split
    next h => exact ih (o.id :: notified) x (List.mem_cons_of_mem _ hx)
    next h => exact ih notified x hx

/-- Every id the urgent loop alerts on ends up in the notified set it
returns. -/
theorem notify12Go_alert_mark (okU : Int → String → Bool) (subs : List Int) :
    ∀ (notified : List String) (offers : List OfferItem) (i : String) (ds : List (Int × Bool)),
      Notif.urgentAlert i ds ∈ (notify12Go okU subs notified offers).2 →
        i ∈ (notify12Go okU subs notified offers).1 := by
  intro notified offers
  induction offers generalizing notified with
  | nil => intro i ds h; simp [notify12Go] at h
  | cons o rest ih =>
    intro i ds h
    rw [notify12Go] at h ⊢
    split at h
    next hg =>
      rcases List.mem_cons.mp h with heq | hmem
      · have h1 : i = o.id := by injection heq
        subst h1
        rw [if_pos hg]
        exact notify12Go_mono okU subs _ rest o.id (List.mem_cons_self _ _)
      · rw [if_pos hg]
        exact ih (o.id :: notified) i ds hmem
    next hg =>
      rw [if_neg hg]
      exact ih notified i ds h

theorem isUrgentFor_urgent (i j : String) (ds : List (Int × Bool)) :
    isUrgentFor i (.urgentAlert j ds) = (j == i) := rfl

theorem isUrgentFor_fav (i : String) (u : Int) (j : String) (d : Bool) :
    isUrgentFor i (.favAlert u j d) = false := rfl

theorem isFavFor_urgent (u : Int) (i j : String) (ds : List (Int × Bool)) :
    isFavFor u i (.urgentAlert j ds) = false := rfl

theorem isFavFor_fav (u : Int) (i : String) (v : Int) (j : String) (d : Bool) :
    isFavFor u i (.favAlert v j d) = (v == u && j == i) := rfl

/-- The urgent loop alerts each offer id at most once per cycle, never alerts
an id already notified, and every id it alerts is marked notified on
return. -/
theorem notify12Go_cnt (okU : Int → String → Bool) (subs : List Int) (i : String) :
    ∀ (notified : List String) (offers : List OfferItem),
      cntU i (notify12Go okU subs notified offers).2 ≤ 1 ∧
        (i ∈ notified → cntU i (notify12Go okU subs notified offers).2 = 0) ∧
        (cntU i (notify12Go okU subs notified offers).2 ≠ 0 →
          i ∈ (notify12Go okU subs notified offers).1) := by
  intro notified offers
  induction offers generalizing notified with
  | nil => simp [notify12Go, cntU]
  | cons o rest ih =>
    rw [notify12Go]
    split
    next hg =>
      have hg' : o.auction_end_seconds < TWELVE_HOURS ∧ notified.contains o.id = false := by
        simpa only [Bool.and_eq_true, decide_eq_true_eq, Bool.not_eq_true'] using hg
      rcases ih (o.id :: notified) with ⟨hle, hzero, hmem⟩
      by_cases hoi : o.id = i
      · subst hoi
        have h0 : cntU o.id (notify12Go okU subs (o.id :: notified) rest).2 = 0 :=
          hzero (List.mem_cons_self _ _)
        refine ⟨?_, ?_, ?_⟩
        · simp only [cntU, List.countP_cons, isUrgentFor_urgent, beq_self_eq_true, if_true]
          simp only [cntU] at h0
          rw [h0]
        · intro hi
          have hc := contains_iff.mpr hi
          rw [hg'.2] at hc
          exact Bool.noConfusion hc
        · intro _
          exact notify12Go_mono okU subs _ rest o.id (List.mem_cons_self _ _)
      · have hbeq : (o.id == i) = false := beq_eq_false_iff_ne.mpr hoi
        refine ⟨?_, ?_, ?_⟩
        · simp only [cntU, List.countP_cons, isUrgentFor_urgent, hbeq, if_false, Nat.add_zero]
          exact hle
        · intro hi
          simp only [cntU, List.countP_cons, isUrgentFor_urgent, hbeq, if_false, Nat.add_zero]
          exact hzero (List.mem_cons_of_mem _ hi)
        · intro hne
          simp only [cntU, List.countP_cons, isUrgentFor_urgent, hbeq, if_false,
            Nat.add_zero] at hne
          exact hmem hne
    next hg => exact ih notified

/-- Every urgent alert names an offer of the cycle's snapshot that is below
the 12-hour threshold. -/
theorem notify12Go_alert_offer (okU : Int → String → Bool) (subs : List Int) :
    ∀ (notified : List String) (offers : List OfferItem) (i : String) (ds : List (Int × Bool)),
      Notif.urgentAlert i ds ∈ (notify12Go okU subs notified offers).2 →
        ∃ o ∈ offers, o.id = i ∧ o.auction_end_seconds < TWELVE_HOURS := by
  intro notified offers
  induction offers generalizing notified with
  | nil => intro i ds h; simp [notify12Go] at h
  | cons o rest ih =>
    intro i ds h
    rw [notify12Go] at h
    split at h
    next hg =>
      have hg' : o.auction_end_seconds < TWELVE_HOURS := by
        have := hg
        simp only [Bool.and_eq_true, decide_eq_true_eq] at this
        exact this.1
      rcases List.mem_cons.mp h with heq | hmem
      · have h1 : i = o.id := by injection heq
        exact ⟨o, List.mem_cons_self _ _, h1.symm, hg'⟩
      · obtain ⟨w, hw, hwid, hwlt⟩ := ih (o.id :: notified) i ds hmem
        exact ⟨w, List.mem_cons_of_mem _ hw, hwid, hwlt⟩
    next hg =>
      obtain ⟨w, hw, hwid, hwlt⟩ := ih notified i ds h
      exact ⟨w, List.mem_cons_of_mem _ hw, hwid, hwlt⟩

/-- An offer of the snapshot below the threshold whose id is not yet notified
does get alerted in this cycle. -/
theorem notify12Go_exists (okU : Int → String → Bool) (subs : List Int) :
    ∀ (notified : List String) (offers : List OfferItem) (o : OfferItem),
      o ∈ offers → o.auction_end_seconds < TWELVE_HOURS → o.id ∉ notified →
        ∃ ds, Notif.urgentAlert o.id ds ∈ (notify12Go okU subs notified offers).2 := by
  intro notified offers
  induction offers generalizing notified with
  | nil => intro o h; exact absurd h (List.not_mem_nil o)
  | cons x rest ih =>
    intro o hmem hlt hnot
    rcases List.mem_cons.mp hmem with rfl | hmem'
    · have hguard : (o.auction_end_seconds < TWELVE_HOURS && !(notified.contains o.id)) = true := by
        have h2 : notified.contains o.id = false := by
          cases hcb : notified.contains o.id
          · rfl
          · exact absurd (contains_iff.mp hcb) hnot
        rw [h2, decide_eq_true hlt]
        rfl
      rw [notify12Go, if_pos hguard]
      exact ⟨_, List.mem_cons_self _ _⟩
    · rw [notify12Go]
      split
      next hguard =>
        by_cases hxo : x.id = o.id
        · exact ⟨_, by rw [hxo]; exact List.mem_cons_self _ _⟩
        · obtain ⟨ds, hds⟩ := ih (x.id :: notified) o hmem' hlt
            (by
              intro hmem2
              rcases List.mem_cons.mp hmem2 with h | h
              · exact hxo h.symm
              · exact hnot h)
          exact ⟨ds, List.mem_cons_of_mem _ hds⟩
      next hguard => exact ih notified o hmem' hlt hnot

/-- The notified set computed by the urgent loop does not depend on delivery
outcomes. -/
theorem notify12Go_indep (okU okU' : Int → String → Bool) (subs : List Int) :
    ∀ (notified : List String) (offers : List OfferItem),
      (notify12Go okU subs notified offers).1 = (notify12Go okU' subs notified offers).1 := by
  intro notified offers
  induction offers generalizing notified with
  | nil => simp [notify12Go]
  | cons o rest ih =>
    rw [notify12Go, notify12Go]
    split
    next hg => exact ih (o.id :: notified)
    next hg => exact ih notified

/-- The urgent loop emits no favorite-tier events. -/
theorem notify12Go_no_fav (okU : Int → String → Bool) (subs : List Int) (u : Int) (i : String) :
    ∀ (notified : List String) (offers : List OfferItem),
      cntF u i (notify12Go okU subs notified offers).2 = 0 := by
  intro notified offers
  induction offers generalizing notified with
  | nil => simp [notify12Go, cntF]
  | cons o rest ih =>
    rw [notify12Go]
    split
    next hg =>
      simp only [cntF, List.countP_cons, isFavFor_urgent, if_false, Nat.add_zero]
      exact ih (o.id :: notified)
    next hg => exact ih notified


/-- A snapshot-map hit returns a snapshot record with the requested id. -/
theorem offersMapGet_mem {cached : List OfferItem} {i : String} {o : OfferItem}
    (h : offersMapGet cached i = some o) : o ∈ cached ∧ o.id = i := by
  unfold offersMapGet at h
  have hmem := List.mem_of_find?_eq_some h
  have hpred := List.find?_some h
  exact ⟨List.mem_reverse.mp hmem, by simpa using hpred⟩

/-- Unpacking the favorites-loop guard: an alertable favorite has a snapshot
record under the threshold and an unrecorded pair key. -/
theorem favAlertable_iff {cached : List OfferItem} {notified : List String} {f : Favorite} :
    favAlertable cached notified f = true ↔
      (∃ o, offersMapGet cached f.offer_id = some o ∧ o.auction_end_seconds < THREE_HOURS) ∧
        favKey f.user_id f.offer_id ∉ notified := by
  unfold favAlertable
  cases hmg : offersMapGet cached f.offer_id with
  | none => simp
  | some o =>
    simp only [Bool.and_eq_true, decide_eq_true_eq, Bool.not_eq_true']
    constructor
    · rintro ⟨hlt, hc⟩
      refine ⟨⟨o, rfl, hlt⟩, fun hmem => ?_⟩
      have hc2 := contains_iff.mpr hmem
      rw [hc] at hc2
      exact Bool.noConfusion hc2
    · rintro ⟨⟨o2, ho2, hlt⟩, hnot⟩
      refine ⟨by cases ho2; exact hlt, ?_⟩
      cases hcb : notified.contains (favKey f.user_id f.offer_id)
      · rfl
      · exact absurd (contains_iff.mp hcb) hnot

/-- Keys already notified stay notified through the favorites loop. -/
theorem checkFavGo_mono (okF : Int → String → Bool) (cached : List OfferItem) (notify : Bool) :
    ∀ (notified : List String) (favs : List Favorite) (x : String),
      x ∈ notified → x ∈ (checkFavGo okF cached notify notified favs).1 := by
  intro notified favs
  induction favs generalizing notified with
  | nil => intro x hx; simpa [checkFavGo] using hx
  | cons f rest ih =>
    intro x hx
    rw [checkFavGo]
    split
    next ha =>
      split
      next => exact ih _ x (List.mem_cons_of_mem _ hx)
      next => exact ih _ x (List.mem_cons_of_mem _ hx)
    next ha => exact ih notified x hx

/-- The favorites loop alerts each (user, offer) pair at most once per cycle,
never re-alerts a recorded pair, and records every pair it alerts. -/
theorem checkFavGo_cnt (okF : Int → String → Bool) (cached : List OfferItem) (notify : Bool)
    (u : Int) (i : String) :
    ∀ (notified : List String) (favs : List Favorite),
      cntF u i (checkFavGo okF cached notify notified favs).2 ≤ 1 ∧
        (favKey u i ∈ notified → cntF u i (checkFavGo okF cached notify notified favs).2 = 0) ∧
        (cntF u i (checkFavGo okF cached notify notified favs).2 ≠ 0 →
          favKey u i ∈ (checkFavGo okF cached notify notified favs).1) := by
  intro notified favs
  induction favs generalizing notified with
  | nil => simp [checkFavGo, cntF]
  | cons f rest ih =>
    rw [checkFavGo]
    split
    next ha =>
      rcases ih (favKey f.user_id f.offer_id :: notified) with ⟨hle, hzero, hmem⟩
      have hnot : favKey f.user_id f.offer_id ∉ notified := (favAlertable_iff.mp ha).2
      split
      next hnotify =>
        by_cases hpair : f.user_id = u ∧ f.offer_id = i
        · have hkey : favKey f.user_id f.offer_id = favKey u i := by
            rw [hpair.1, hpair.2]
          have hpred : isFavFor u i
              (Notif.favAlert f.user_id f.offer_id (okF f.user_id f.offer_id)) = true := by
            rw [isFavFor_fav]
            simp [hpair.1, hpair.2]
          have h0 : cntF u i
              (checkFavGo okF cached notify (favKey f.user_id f.offer_id :: notified) rest).2
                = 0 :=
            hzero (hkey ▸ List.mem_cons_self _ _)
          refine ⟨?_, ?_, ?_⟩
          · simp only [cntF, List.countP_cons, hpred, if_true]
            simp only [cntF] at h0
            rw [h0]
          · intro hi
            exact absurd (hkey ▸ hi) hnot
          · intro _
            exact checkFavGo_mono okF cached notify _ rest _
              (hkey ▸ List.mem_cons_self _ _)
        · have hpred : isFavFor u i
              (Notif.favAlert f.user_id f.offer_id (okF f.user_id f.offer_id)) = false := by
            rw [isFavFor_fav]
            rcases Decidable.not_and_iff_or_not.mp hpair with h | h
            · simp [beq_eq_false_iff_ne.mpr h]
            · simp [beq_eq_false_iff_ne.mpr h]
          refine ⟨?_, ?_, ?_⟩
          · simp only [cntF, List.countP_cons, hpred, if_false, Nat.add_zero]
            exact hle
          · intro hi
            simp only [cntF, List.countP_cons, hpred, if_false, Nat.add_zero]
            exact hzero (List.mem_cons_of_mem _ hi)
          · intro hne
            simp only [cntF, List.countP_cons, hpred, if_false, Nat.add_zero] at hne
            exact hmem hne
      next hnotify =>
        exact ⟨hle, fun hi => hzero (List.mem_cons_of_mem _ hi), hmem⟩
    next ha => exact ih notified

/-- Every pair the favorites loop alerts is recorded in the returned set. -/
theorem checkFavGo_alert_mark (okF : Int → String → Bool) (cached : List OfferItem)
    (notify : Bool) :
    ∀ (notified : List String) (favs : List Favorite) (v : Int) (j : String) (d : Bool),
      Notif.favAlert v j d ∈ (checkFavGo okF cached notify notified favs).2 →
        favKey v j ∈ (checkFavGo okF cached notify notified favs).1 := by
  intro notified favs
  induction favs generalizing notified with
  | nil => intro v j d h; simp [checkFavGo] at h
  | cons f rest ih =>
    intro v j d h
    rw [checkFavGo] at h ⊢
    split at h
    next ha =>
      split at h
      next hnotify =>
        rw [if_pos ha, if_pos hnotify]
        rcases List.mem_cons.mp h with heq | hmem
        · have h1 : v = f.user_id := by injection heq
          have h2 : j = f.offer_id := by injection heq with ha1 ha2 ha3
          subst h1; subst h2
          exact checkFavGo_mono okF cached notify _ rest _ (List.mem_cons_self _ _)
        · exact ih _ v j d hmem
      next hnotify =>
        rw [if_pos ha, if_neg hnotify]
        exact ih _ v j d h
    next ha =>
      rw [if_neg ha]
      exact ih notified v j d h

/-- Every favorite alert names a snapshot record below the 3-hour
threshold. -/
theorem checkFavGo_alert_offer (okF : Int → String → Bool) (cached : List OfferItem)
    (notify : Bool) :
    ∀ (notified : List String) (favs : List Favorite) (v : Int) (j : String) (d : Bool),
      Notif.favAlert v j d ∈ (checkFavGo okF cached notify notified favs).2 →
        ∃ o ∈ cached, o.id = j ∧ o.auction_end_seconds < THREE_HOURS := by
  intro notified favs
  induction favs generalizing notified with
  | nil => intro v j d h; simp [checkFavGo] at h
  | cons f rest ih =>
    intro v j d h
    rw [checkFavGo] at h
    split at h
    next ha =>
      split at h
      next hnotify =>
        rcases List.mem_cons.mp h with heq | hmem
        · have h2 : j = f.offer_id := by injection heq with ha1 ha2 ha3
          obtain ⟨⟨o, hmg, hlt⟩, _⟩ := favAlertable_iff.mp ha
          obtain ⟨homem, hoid⟩ := offersMapGet_mem hmg
          exact ⟨o, homem, by rw [hoid, h2], hlt⟩
        · exact ih _ v j d hmem
      next hnotify => exact ih _ v j d h
    next ha => exact ih notified v j d h

/-- With `notify=False` (the warm start) the favorites loop emits nothing. -/
theorem checkFavGo_noemit (okF : Int → String → Bool) (cached : List OfferItem) :
    ∀ (notified : List String) (favs : List Favorite),
      (checkFavGo okF cached false notified favs).2 = [] := by
  intro notified favs
  induction favs generalizing notified with
  | nil => simp [checkFavGo]
  | cons f rest ih =>
    rw [checkFavGo]
    split
    next ha => exact ih _
    next ha => exact ih notified

/-- The key set computed by the favorites loop does not depend on delivery
outcomes. -/
theorem checkFavGo_indep (okF okF' : Int → String → Bool) (cached : List OfferItem)
    (notify : Bool) :
    ∀ (notified : List String) (favs : List Favorite),
      (checkFavGo okF cached notify notified favs).1 =
        (checkFavGo okF' cached notify notified favs).1 := by
  intro notified favs
  induction favs generalizing notified with
  | nil => simp [checkFavGo]
  | cons f rest ih =>
    rw [checkFavGo, checkFavGo]
    split
    next ha =>
      split
      next => exact ih _
      next => exact ih _
    next ha => exact ih notified

/-- The favorites loop emits no urgent-tier events. -/
theorem checkFavGo_no_urgent (okF : Int → String → Bool) (cached : List OfferItem)
    (notify : Bool) (i : String) :
    ∀ (notified : List String) (favs : List Favorite),
      cntU i (checkFavGo okF cached notify notified favs).2 = 0 := by
  intro notified favs
  induction favs generalizing notified with
  | nil => simp [checkFavGo, cntU]
  | cons f rest ih =>
    rw [checkFavGo]
    split
    next ha =>
      split
      next =>
        simp only [cntU, List.countP_cons, isUrgentFor_fav, if_false, Nat.add_zero]
        exact ih _
      next => exact ih _
    next ha => exact ih notified

theorem checkFav3h_mono (okF : Int → String → Bool) (cached : List OfferItem)
    (notified3 : List String) (favsResult : Option (List Favorite)) (notify : Bool)
    (x : String) (hx : x ∈ notified3) :
    x ∈ (checkFav3h okF cached notified3 favsResult notify).1 := by
  unfold checkFav3h
  split
  · exact hx
  · cases favsResult with
    | none => exact hx
    | some favs => exact checkFavGo_mono okF cached notify notified3 favs x hx

theorem checkFav3h_cnt (okF : Int → String → Bool) (cached : List OfferItem)
    (notified3 : List String) (favsResult : Option (List Favorite)) (notify : Bool)
    (u : Int) (i : String) :
    cntF u i (checkFav3h okF cached notified3 favsResult notify).2 ≤ 1 ∧
      (favKey u i ∈ notified3 →
        cntF u i (checkFav3h okF cached notified3 favsResult notify).2 = 0) ∧
      (cntF u i (checkFav3h okF cached notified3 favsResult notify).2 ≠ 0 →
        favKey u i ∈ (checkFav3h okF cached notified3 favsResult notify).1) := by
  unfold checkFav3h
  split
  · simp [cntF]
  · cases favsResult with
    | none => simp [cntF]
    | some favs => exact checkFavGo_cnt okF cached notify u i notified3 favs

theorem checkFav3h_alert_mark (okF : Int → String → Bool) (cached : List OfferItem)
    (notified3 : List String) (favsResult : Option (List Favorite)) (notify : Bool)
    (v : Int) (j : String) (d : Bool)
    (h : Notif.favAlert v j d ∈ (checkFav3h okF cached notified3 favsResult notify).2) :
    favKey v j ∈ (checkFav3h okF cached notified3 favsResult notify).1 := by
  unfold checkFav3h at h ⊢
  split at h
  next hemp => exact absurd h (List.not_mem_nil _)
  next hemp =>
    cases favsResult with
    | none => exact absurd h (List.not_mem_nil _)
    | some favs =>
      rw [if_neg hemp]
      exact checkFavGo_alert_mark okF cached notify notified3 favs v j d h

theorem checkFav3h_alert_offer (okF : Int → String → Bool) (cached : List OfferItem)
    (notified3 : List String) (favsResult : Option (List Favorite)) (notify : Bool)
    (v : Int) (j : String) (d : Bool)
    (h : Notif.favAlert v j d ∈ (checkFav3h okF cached notified3 favsResult notify).2) :
    ∃ o ∈ cached, o.id = j ∧ o.auction_end_seconds < THREE_HOURS := by
  unfold checkFav3h at h
  split at h
  next hemp => exact absurd h (List.not_mem_nil _)
  next hemp =>
    cases favsResult with
    | none => exact absurd h (List.not_mem_nil _)
    | some favs =>
      exact checkFavGo_alert_offer okF cached notify notified3 favs v j d h

theorem checkFav3h_noemit (okF : Int → String → Bool) (cached : List OfferItem)
    (notified3 : List String) (favsResult : Option (List Favorite)) :
    (checkFav3h okF cached notified3 favsResult false).2 = [] := by
  unfold checkFav3h
  split
  · rfl
  · cases favsResult with
    | none => rfl
    | some favs => exact checkFavGo_noemit okF cached notified3 favs

theorem checkFav3h_indep (okF okF' : Int → String → Bool) (cached : List OfferItem)
    (notified3 : List String) (favsResult : Option (List Favorite)) (notify : Bool) :
    (checkFav3h okF cached notified3 favsResult notify).1 =
      (checkFav3h okF' cached notified3 favsResult notify).1 := by
  unfold checkFav3h
  split
  · rfl
  · cases favsResult with
    | none => rfl
    | some favs => exact checkFavGo_indep okF okF' cached notify notified3 favs

theorem checkFav3h_no_urgent (okF : Int → String → Bool) (cached : List OfferItem)
    (notified3 : List String) (favsResult : Option (List Favorite)) (notify : Bool)
    (i : String) :
    cntU i (checkFav3h okF cached notified3 favsResult notify).2 = 0 := by
  unfold checkFav3h
  split
  · simp [cntU]
  · cases favsResult with
    | none => simp [cntU]
    | some favs => exact checkFavGo_no_urgent okF cached notify i notified3 favs

/-- Unfolding equation: a cycle whose fetch raised leaves the state untouched
and emits nothing. -/
theorem pollCycle_none (st : PollerState) (manualDb : Option (List ManualCar)) (now : Int)
    (favsResult : Option (List Favorite)) (subs : List Int) (okU okF : Int → String → Bool) :
    pollCycle st none manualDb now favsResult subs okU okF = (st, []) := rfl

/-- Unfolding equation for a cycle with a successful fetch. -/
theorem pollCycle_some (st : PollerState) (f : List OfferItem)
    (manualDb : Option (List ManualCar)) (now : Int) (favsResult : Option (List Favorite))
    (subs : List Int) (okU okF : Int → String → Bool) :
    pollCycle st (some f) manualDb now favsResult subs okU okF =
      (⟨(sortOffers (f ++ loadManualCars now manualDb)).foldl
            (fun s o => insertId s o.id) st.seenIds,
        sortOffers (f ++ loadManualCars now manualDb),
        (notify12Go okU subs st.notified12h (sortOffers (f ++ loadManualCars now manualDb))).1,
        (checkFav3h okF (sortOffers (f ++ loadManualCars now manualDb)) st.notified3h
          favsResult true).1⟩,
      (notify12Go okU subs st.notified12h (sortOffers (f ++ loadManualCars now manualDb))).2 ++
        (checkFav3h okF (sortOffers (f ++ loadManualCars now manualDb)) st.notified3h
          favsResult true).2) := rfl

/-- Urgent-tier per-cycle bookkeeping: at most one alert per id, no alert for
an already-notified id, alerted ids get recorded, and the recorded set only
grows. -/
theorem pollCycle_urgent (st : PollerState) (fetched : Option (List OfferItem))
    (manualDb : Option (List ManualCar)) (now : Int) (favsResult : Option (List Favorite))
    (subs : List Int) (okU okF : Int → String → Bool) (i : String) :
    cntU i (pollCycle st fetched manualDb now favsResult subs okU okF).2 ≤ 1 ∧
      (i ∈ st.notified12h →
        cntU i (pollCycle st fetched manualDb now favsResult subs okU okF).2 = 0) ∧
      (cntU i (pollCycle st fetched manualDb now favsResult subs okU okF).2 ≠ 0 →
        i ∈ (pollCycle st fetched manualDb now favsResult subs okU okF).1.notified12h) ∧
      (∀ x ∈ st.notified12h,
        x ∈ (pollCycle st fetched manualDb now favsResult subs okU okF).1.notified12h) := by
  cases fetched with
  | none =>
    rw [pollCycle_none]
    exact ⟨by simp [cntU], fun _ => by simp [cntU], by simp [cntU], fun x hx => hx⟩
  | some f =>
    rw [pollCycle_some]
    have h3 : cntU i (checkFav3h okF (sortOffers (f ++ loadManualCars now manualDb))
        st.notified3h favsResult true).2 = 0 :=
      checkFav3h_no_urgent okF _ st.notified3h favsResult true i
    rcases notify12Go_cnt okU subs i st.notified12h
        (sortOffers (f ++ loadManualCars now manualDb)) with ⟨hle, hzero, hmem⟩
    refine ⟨?_, ?_, ?_, ?_⟩
    · simp only [cntU, List.countP_append]
      simp only [cntU] at hle h3
      omega
    · intro hi
      simp only [cntU, List.countP_append]
      simp only [cntU] at h3
      have := hzero hi
      simp only [cntU] at this
      omega
    · intro hne
      simp only [cntU, List.countP_append] at hne
      simp only [cntU] at h3 hmem
      exact hmem (by omega)
    · intro x hx
      exact notify12Go_mono okU subs st.notified12h _ x hx

/-- Favorite-tier per-cycle bookkeeping, the analogue of
`pollCycle_urgent`. -/
theorem pollCycle_fav (st : PollerState) (fetched : Option (List OfferItem))
    (manualDb : Option (List ManualCar)) (now : Int) (favsResult : Option (List Favorite))
    (subs : List Int) (okU okF : Int → String → Bool) (u : Int) (i : String) :
    cntF u i (pollCycle st fetched manualDb now favsResult subs okU okF).2 ≤ 1 ∧
      (favKey u i ∈ st.notified3h →
        cntF u i (pollCycle st fetched manualDb now favsResult subs okU okF).2 = 0) ∧
      (cntF u i (pollCycle st fetched manualDb now favsResult subs okU okF).2 ≠ 0 →
        favKey u i ∈ (pollCycle st fetched manualDb now favsResult subs okU okF).1.notified3h) ∧
      (∀ x ∈ st.notified3h,
        x ∈ (pollCycle st fetched manualDb now favsResult subs okU okF).1.notified3h) := by
  cases fetched with
  | none =>
    rw [pollCycle_none]
    exact ⟨by simp [cntF], fun _ => by simp [cntF], by simp [cntF], fun x hx => hx⟩
  | some f =>
    rw [pollCycle_some]
    have h12 : cntF u i (notify12Go okU subs st.notified12h
        (sortOffers (f ++ loadManualCars now manualDb))).2 = 0 :=
      notify12Go_no_fav okU subs u i st.notified12h _
    rcases checkFav3h_cnt okF (sortOffers (f ++ loadManualCars now manualDb)) st.notified3h
        favsResult true u i with ⟨hle, hzero, hmem⟩
    refine ⟨?_, ?_, ?_, ?_⟩
    · simp only [cntF, List.countP_append]
      simp only [cntF] at hle h12
      omega
    · intro hi
      simp only [cntF, List.countP_append]
      have := hzero hi
      simp only [cntF] at this h12
      omega
    · intro hne
      simp only [cntF, List.countP_append] at hne
      simp only [cntF] at h12 hmem
      exact hmem (by omega)
    · intro x hx
      exact checkFav3h_mono okF _ st.notified3h favsResult true x hx

/-- Every urgent alert of a cycle is recorded in the cycle's resulting
notified set. -/
theorem pollCycle_urgent_mark (st : PollerState) (fetched : Option (List OfferItem))
    (manualDb : Option (List ManualCar)) (now : Int) (favsResult : Option (List Favorite))
    (subs : List Int) (okU okF : Int → String → Bool) (i : String) (ds : List (Int × Bool))
    (h : Notif.urgentAlert i ds ∈ (pollCycle st fetched manualDb now favsResult subs okU okF).2) :
    i ∈ (pollCycle st fetched manualDb now favsResult subs okU okF).1.notified12h := by
  cases fetched with
  | none => rw [pollCycle_none] at h; exact absurd h (List.not_mem_nil _)
  | some f =>
    rw [pollCycle_some] at h ⊢
    rcases List.mem_append.mp h with h12 | h3
    · exact notify12Go_alert_mark okU subs st.notified12h _ i ds h12
    · exfalso
      have hz := checkFav3h_no_urgent okF (sortOffers (f ++ loadManualCars now manualDb))
        st.notified3h favsResult true i
      have : isUrgentFor i (Notif.urgentAlert i ds) = true := by
        rw [isUrgentFor_urgent]; exact beq_self_eq_true i
      rw [cntU, List.countP_eq_zero] at hz
      exact absurd this (by simpa using hz _ h3)

/-- Every favorite alert of a cycle is recorded in the cycle's resulting
key set. -/
theorem pollCycle_fav_mark (st : PollerState) (fetched : Option (List OfferItem))
    (manualDb : Option (List ManualCar)) (now : Int) (favsResult : Option (List Favorite))
    (subs : List Int) (okU okF : Int → String → Bool) (v : Int) (j : String) (d : Bool)
    (h : Notif.favAlert v j d ∈ (pollCycle st fetched manualDb now favsResult subs okU okF).2) :
    favKey v j ∈ (pollCycle st fetched manualDb now favsResult subs okU okF).1.notified3h := by
  cases fetched with
  | none => rw [pollCycle_none] at h; exact absurd h (List.not_mem_nil _)
  | some f =>
    rw [pollCycle_some] at h ⊢
    rcases List.mem_append.mp h with h12 | h3
    · exfalso
      have hz := notify12Go_no_fav okU subs v j st.notified12h
        (sortOffers (f ++ loadManualCars now manualDb))
      have : isFavFor v j (Notif.favAlert v j d) = true := by
        rw [isFavFor_fav]
        simp
      rw [cntF, List.countP_eq_zero] at hz
      exact absurd this (by simpa using hz _ h12)
    · exact checkFav3h_alert_mark okF _ st.notified3h favsResult true v j d h3

/-- Every urgent alert of a cycle names a record of the cycle's snapshot that
is below the urgent threshold. -/
theorem pollCycle_urgent_offer (st : PollerState) (fetched : Option (List OfferItem))
    (manualDb : Option (List ManualCar)) (now : Int) (favsResult : Option (List Favorite))
    (subs : List Int) (okU okF : Int → String → Bool) (i : String) (ds : List (Int × Bool))
    (h : Notif.urgentAlert i ds ∈ (pollCycle st fetched manualDb now favsResult subs okU okF).2) :
    ∃ o ∈ (pollCycle st fetched manualDb now favsResult subs okU okF).1.cachedOffers,
      o.id = i ∧ o.auction_end_seconds < TWELVE_HOURS := by
  cases fetched with
  | none => rw [pollCycle_none] at h; exact absurd h (List.not_mem_nil _)
  | some f =>
    rw [pollCycle_some] at h ⊢
    rcases List.mem_append.mp h with h12 | h3
    · exact notify12Go_alert_offer okU subs st.notified12h _ i ds h12
    · exfalso
      have hz := checkFav3h_no_urgent okF (sortOffers (f ++ loadManualCars now manualDb))
        st.notified3h favsResult true i
      have : isUrgentFor i (Notif.urgentAlert i ds) = true := by
        rw [isUrgentFor_urgent]; exact beq_self_eq_true i
      rw [cntU, List.countP_eq_zero] at hz
      exact absurd this (by simpa using hz _ h3)

/-- Every favorite alert of a cycle names a record of the cycle's snapshot
that is below the favorite threshold. -/
theorem pollCycle_fav_offer (st : PollerState) (fetched : Option (List OfferItem))
    (manualDb : Option (List ManualCar)) (now : Int) (favsResult : Option (List Favorite))
    (subs : List Int) (okU okF : Int → String → Bool) (v : Int) (j : String) (d : Bool)
    (h : Notif.favAlert v j d ∈ (pollCycle st fetched manualDb now favsResult subs okU okF).2) :
    ∃ o ∈ (pollCycle st fetched manualDb now favsResult subs okU okF).1.cachedOffers,
      o.id = j ∧ o.auction_end_seconds < THREE_HOURS := by
  cases fetched with
  | none => rw [pollCycle_none] at h; exact absurd h (List.not_mem_nil _)
  | some f =>
    rw [pollCycle_some] at h ⊢
    rcases List.mem_append.mp h with h12 | h3
    · exfalso
      have hz := notify12Go_no_fav okU subs v j st.notified12h
        (sortOffers (f ++ loadManualCars now manualDb))
      have : isFavFor v j (Notif.favAlert v j d) = true := by
        rw [isFavFor_fav]
        simp
      rw [cntF, List.countP_eq_zero] at hz
      exact absurd this (by simpa using hz _ h12)
    · exact checkFav3h_alert_offer okF _ st.notified3h favsResult true v j d h3

/-- A snapshot record below the urgent threshold whose id is not yet notified
is alerted in this cycle. -/
theorem pollCycle_exists (st : PollerState) (f : List OfferItem)
    (manualDb : Option (List ManualCar)) (now : Int) (favsResult : Option (List Favorite))
    (subs : List Int) (okU okF : Int → String → Bool) (o : OfferItem)
    (hmem : o ∈ sortOffers (f ++ loadManualCars now manualDb))
    (hlt : o.auction_end_seconds < TWELVE_HOURS) (hnot : o.id ∉ st.notified12h) :
    ∃ ds, Notif.urgentAlert o.id ds ∈
      (pollCycle st (some f) manualDb now favsResult subs okU okF).2 := by
  rw [pollCycle_some]
  obtain ⟨ds, hds⟩ := notify12Go_exists okU subs st.notified12h _ o hmem hlt hnot
  exact ⟨ds, List.mem_append_left _ hds⟩

/-- The state a cycle produces does not depend on the delivery oracles. -/
theorem pollCycle_indep (st : PollerState) (fetched : Option (List OfferItem))
    (manualDb : Option (List ManualCar)) (now : Int) (favsResult : Option (List Favorite))
    (subs : List Int) (okU okF okU' okF' : Int → String → Bool) :
    (pollCycle st fetched manualDb now favsResult subs okU okF).1 =
      (pollCycle st fetched manualDb now favsResult subs okU' okF').1 := by
  cases fetched with
  | none => rfl
  | some f =>
    rw [pollCycle_some, pollCycle_some]
    dsimp only
    rw [notify12Go_indep okU okU' subs st.notified12h
        (sortOffers (f ++ loadManualCars now manualDb)),
      checkFav3h_indep okF okF' (sortOffers (f ++ loadManualCars now manualDb)) st.notified3h
        favsResult true]

/-- Unfolding equation for a run of at least one cycle. -/
theorem runCycles_cons (st : PollerState) (inp : CycleInput) (rest : List CycleInput) :
    runCycles st (inp :: rest) =
      ((runCycles (stepCycle st inp).1 rest).1,
        (stepCycle st inp).2 ++ (runCycles (stepCycle st inp).1 rest).2) := rfl

theorem stepCycle_eq (st : PollerState) (inp : CycleInput) :
    stepCycle st inp =
      pollCycle st inp.fetched inp.manualDb inp.now inp.favsResult inp.subs inp.okU inp.okF := rfl

/-- Urgent-tier bookkeeping over any number of consecutive cycles. -/
theorem runCycles_urgent (i : String) : ∀ (inputs : List CycleInput) (st : PollerState),
    cntU i (runCycles st inputs).2 ≤ 1 ∧
      (i ∈ st.notified12h → cntU i (runCycles st inputs).2 = 0) ∧
      (cntU i (runCycles st inputs).2 ≠ 0 → i ∈ (runCycles st inputs).1.notified12h) ∧
      (∀ x ∈ st.notified12h, x ∈ (runCycles st inputs).1.notified12h) := by
  intro inputs
  induction inputs with
  | nil =>
    intro st
    exact ⟨by simp [runCycles, cntU], fun _ => by simp [runCycles, cntU],
      by simp [runCycles, cntU], fun x hx => hx⟩
  | cons inp rest ih =>
    intro st
    rcases pollCycle_urgent st inp.fetched inp.manualDb inp.now inp.favsResult inp.subs
        inp.okU inp.okF i with ⟨p1, p2, p3, p4⟩
    rw [← stepCycle_eq] at p1 p2 p3 p4
    rcases ih (stepCycle st inp).1 with ⟨q1, q2, q3, q4⟩
    rw [runCycles_cons]
    simp only [cntU, List.countP_append] at p1 p2 p3 q1 q2 q3 ⊢
    refine ⟨?_, ?_, ?_, ?_⟩
    · by_cases hz : (stepCycle st inp).2.countP (isUrgentFor i) = 0
      · omega
      · have hmem := p3 hz
        have hq0 := q2 hmem
        omega
    · intro hi
      have hp0 := p2 hi
      have hq0 := q2 (p4 i hi)
      omega
    · intro hne
      by_cases hz : (runCycles (stepCycle st inp).1 rest).2.countP (isUrgentFor i) = 0
      · have hpne : (stepCycle st inp).2.countP (isUrgentFor i) ≠ 0 := by omega
        exact q4 i (p3 hpne)
      · exact q3 hz
    · intro x hx
      exact q4 x (p4 x hx)

/-- Favorite-tier bookkeeping over any number of consecutive cycles. -/
theorem runCycles_fav (u : Int) (i : String) : ∀ (inputs : List CycleInput) (st : PollerState),
    cntF u i (runCycles st inputs).2 ≤ 1 ∧
      (favKey u i ∈ st.notified3h → cntF u i (runCycles st inputs).2 = 0) ∧
      (cntF u i (runCycles st inputs).2 ≠ 0 → favKey u i ∈ (runCycles st inputs).1.notified3h) ∧
      (∀ x ∈ st.notified3h, x ∈ (runCycles st inputs).1.notified3h) := by
  intro inputs
  induction inputs with
  | nil =>
    intro st
    exact ⟨by simp [runCycles, cntF], fun _ => by simp [runCycles, cntF],
      by simp [runCycles, cntF], fun x hx => hx⟩
  | cons inp rest ih =>
    intro st
    rcases pollCycle_fav st inp.fetched inp.manualDb inp.now inp.favsResult inp.subs
        inp.okU inp.okF u i with ⟨p1, p2, p3, p4⟩
    rw [← stepCycle_eq] at p1 p2 p3 p4
    rcases ih (stepCycle st inp).1 with ⟨q1, q2, q3, q4⟩
    rw [runCycles_cons]
    simp only [cntF, List.countP_append] at p1 p2 p3 q1 q2 q3 ⊢
    refine ⟨?_, ?_, ?_, ?_⟩
    · by_cases hz : (stepCycle st inp).2.countP (isFavFor u i) = 0
      · omega
      · have hmem := p3 hz
        have hq0 := q2 hmem
        omega
    · intro hi
      have hp0 := p2 hi
      have hq0 := q2 (p4 _ hi)
      omega
    · intro hne
      by_cases hz : (runCycles (stepCycle st inp).1 rest).2.countP (isFavFor u i) = 0
      · have hpne : (stepCycle st inp).2.countP (isFavFor u i) ≠ 0 := by omega
        exact q4 _ (p3 hpne)
      · exact q3 hz
    · intro x hx
      exact q4 x (p4 x hx)

/-- A failed adapter call (exception or non-200) contributes nothing: the
gather loop behaves as if that adapter were absent. -/
theorem gatherOffers_failure_skip (now : Int) (fr : FetchResult × String)
    (hfail : isFailure fr.1 = true) :
    ∀ (pre post : List (FetchResult × String)),
      gatherOffers now (pre ++ fr :: post) = gatherOffers now (pre ++ post) := by
  intro pre
  induction pre with
  | nil =>
    intro post
    cases fr with
    | mk r src =>
      cases r with
      | exn => rfl
      | resp status cards =>
        have hs : (status != 200) = true := hfail
        simp only [List.nil_append, gatherOffers, hs, if_true]
  | cons x pre ih =>
    intro post
    cases x with
    | mk r src =>
      cases r with
      | exn =>
        simp only [List.cons_append, gatherOffers]
        exact ih post
      | resp status cards =>
        by_cases hs : (status != 200) = true
        · simp only [List.cons_append, gatherOffers, hs, if_true]
          exact ih post
        · have hs' : (status != 200) = false := by
            cases hb : (status != 200)
            · rfl
            · exact absurd hb hs
          simp only [List.cons_append, gatherOffers, hs', Bool.false_eq_true, if_false,
            List.append_eq]
          rw [ih post]

/-- The failure-skip property lifted to the full fetch pipeline. -/
theorem fetchOffers_failure_skip (now : Int) (fr : FetchResult × String)
    (hfail : isFailure fr.1 = true) (pre post : List (FetchResult × String)) :
    fetchOffers now (pre ++ fr :: post) = fetchOffers now (pre ++ post) := by
  unfold fetchOffers
  rw [gatherOffers_failure_skip now fr hfail pre post]

/-- An unparseable end-time text yields the sentinel. -/
theorem parseAuctionEnd_failure (now : Int) (text : String)
    (h : strptimeDT (pyStrip text) = none) : parseAuctionEnd now text = 999999 := by
  unfold parseAuctionEnd
  rw [h]

/-- In a sorted snapshot, a sentinel record sits after every record whose
countdown is smaller. -/
theorem sortOffers_sentinel_position (l : List OfferItem)
    (i j : Fin (sortOffers l).length)
    (hi : ((sortOffers l).get i).auction_end_seconds = 999999)
    (hj : ((sortOffers l).get j).auction_end_seconds < 999999) : j < i := by
  rcases Nat.lt_trichotomy i.val j.val with h | h | h
  · exfalso
    have hrel := (sortOffers_sorted l).rel_get_of_lt (show i < j from h)
    rw [offerLE, hi] at hrel
    omega
  · exfalso
    have heq : i = j := Fin.ext h
    rw [heq] at hi
    omega
  · exact h

/-- Unfolding equation for a failed warm start. -/
theorem warmStart_none (manualDb : Option (List ManualCar)) (now : Int)
    (favsResult : Option (List Favorite)) (okF : Int → String → Bool) :
    warmStart none manualDb now favsResult okF = (initState, []) := rfl

/-- Unfolding equation for a successful warm start. -/
theorem warmStart_some (f : List OfferItem) (manualDb : Option (List ManualCar)) (now : Int)
    (favsResult : Option (List Favorite)) (okF : Int → String → Bool) :
    warmStart (some f) manualDb now favsResult okF =
      (⟨((sortOffers (f ++ loadManualCars now manualDb)).filter
            (fun o => o.id ≠ "")).map (fun o => o.id),
        sortOffers (f ++ loadManualCars now manualDb),
        ((sortOffers (f ++ loadManualCars now manualDb)).filter (fun o =>
            o.auction_end_seconds < TWELVE_HOURS && !(pyStartsWith o.id "manual_"))).map
          (fun o => o.id),
        (checkFav3h okF (sortOffers (f ++ loadManualCars now manualDb)) [] favsResult
          false).1⟩,
      (checkFav3h okF (sortOffers (f ++ loadManualCars now manualDb)) [] favsResult
        false).2) := rfl

/-- A list is a Boolean prefix of itself followed by anything. -/
theorem isPrefixOf_append (l1 l2 : List Char) : l1.isPrefixOf (l1 ++ l2) = true := by
  induction l1 with
  | nil => simp
  | cons c rest ih => simp [ih]

/-- Every id in a manual-car record starts with the manual prefix. -/
theorem loadManualCars_prefix (now : Int) (dbResult : Option (List ManualCar)) :
    ∀ o ∈ loadManualCars now dbResult, pyStartsWith o.id "manual_" = true := by
  intro o ho
  cases dbResult with
  | none => exact absurd ho (List.not_mem_nil o)
  | some cars =>
    unfold loadManualCars at ho
    obtain ⟨car, hcar, hmk⟩ := List.mem_filterMap.mp ho
    by_cases hsec : ((max 0 (toEpoch car.auction_end - now)).toNat ≤ 0)
    · rw [if_pos hsec] at hmk
      exact Option.noConfusion hmk
    · rw [if_neg hsec] at hmk
      have hid : o.id = "manual_" ++ toString car.id := by
        cases hmk
        rfl
      rw [hid]
      unfold pyStartsWith
      have hdata : ("manual_" ++ toString car.id).data =
          "manual_".data ++ (toString car.id).data := rfl
      rw [hdata]
      exact isPrefixOf_append "manual_".data (toString car.id).data

/-! ## Concrete sample inputs used by witnesses and counterexamples -/

/-- A scraped offer just under the urgent threshold. -/
def smpOff42 : OfferItem := ⟨"42", "w", "", "", "", "", "", "AXA", 43199⟩

/-- One steady-state cycle input whose snapshot holds `smpOff42`, with a
favorite on it and one subscriber. -/
def smpInp : CycleInput :=
  ⟨some [smpOff42], none, 0, some [⟨7, "42"⟩], [100], fun _ _ => true, fun _ _ => true⟩

/-- A scraped offer already urgent at warm start. -/
def smpOff77 : OfferItem := ⟨"77", "s", "", "", "", "", "", "AXA", 1000⟩

/-- A manual car whose auction ends 1000 seconds after the epoch. -/
def smpCar : ManualCar := ⟨1, "m", "", "", ⟨1970, 1, 1, 0, 16, 40⟩, none, none, true⟩

/-- The offer record `_load_manual_cars` builds from `smpCar` at `now = 0`. -/
def smpManOff : OfferItem :=
  ⟨"manual_1", "m", "", "", "1970-01-01 00:16:40", "", "", "Менеджер", 1000⟩

/-- Cards with the same lot id from two different sources. -/
def smpCardA : Card := ⟨some "A", some "N: 42", [], none, some "imgA"⟩

def smpCardB : Card := ⟨some "B", some "N: 42", [], none, some "imgB"⟩

def smpOffA : OfferItem := ⟨"42", "A", "", "", "", "", "imgA", "AXA", 999999⟩

def smpOffB : OfferItem := ⟨"42", "B", "", "", "", "", "imgB", "REST", 999999⟩

/-- A card whose end-time text does not parse. -/
def smpCardBad : Card :=
  ⟨some "Bad", some "N: 9", [("Data zakończenia", some "not-a-date")], none, none⟩

/-- A card whose auction ends in 2050, far beyond the sentinel. -/
def smpCardSlow : Card :=
  ⟨some "Slow", some "N: 8", [("Data zakończenia", some "2050-01-01 00:00:00")], none, none⟩

/-- Wall clock 2020-01-01 00:00:00 UTC. -/
def smpNow2020 : Int := 1577836800

def smpOffBad : OfferItem := ⟨"9", "Bad", "", "", "not-a-date", "", "", "AXA", 999999⟩

def smpOffSlow : OfferItem :=
  ⟨"8", "Slow", "", "", "2050-01-01 00:00:00", "", "", "AXA", 946771200⟩

/-- Cards of the two healthy adapters in the partial-failure scenario. -/
def smpCardP1 : Card := ⟨some "P1", some "N: 1", [], none, none⟩

def smpCardP2 : Card := ⟨some "P2", some "N: 2", [], none, none⟩

def smpOffP1 : OfferItem := ⟨"1", "P1", "", "", "", "", "", "AXA", 999999⟩

def smpOffP2 : OfferItem := ⟨"2", "P2", "", "", "", "", "", "Allianz", 999999⟩

/-- An offer below both thresholds, for the delivery-failure scenario. -/
def smpOffX : OfferItem := ⟨"x", "t", "", "", "", "", "", "AXA", 1000⟩

/-- A card whose auction-id element is missing: its record gets an empty
id. -/
def smpCardNoId : Card := ⟨some "N", none, [], none, none⟩

def smpCard7 : Card := ⟨some "S", some "N: 7", [], none, none⟩

def smpOff7 : OfferItem := ⟨"7", "S", "", "", "", "", "", "AXA", 999999⟩

/-! ## The claims -/

/-- C4: for every merged collection of offers (scraped plus manual), the
final snapshot list is sorted ascending by `remainingSeconds` (most urgent
first), and records with equal `remainingSeconds` appear in their original
merge order (stable sort). -/
theorem claim4_sort_order (st : PollerState) (f : List OfferItem)
    (manualDb : Option (List ManualCar)) (now : Int) (favsResult : Option (List Favorite))
    (subs : List Int) (okU okF : Int → String → Bool) :
    List.Sorted offerLE
        (pollCycle st (some f) manualDb now favsResult subs okU okF).1.cachedOffers ∧
      ∀ k : Nat,
        (pollCycle st (some f) manualDb now favsResult subs okU okF).1.cachedOffers.filter
            (fun o => o.auction_end_seconds == k) =
          (f ++ loadManualCars now manualDb).filter (fun o => o.auction_end_seconds == k) := by
  rw [pollCycle_some]
  exact ⟨sortOffers_sorted _, fun k => sortOffers_filter_key _ k⟩

/-- C8: a cycle whose fetch fails leaves the whole poller state — in
particular the cached snapshot — exactly as it was and emits nothing; a
successful cycle replaces the snapshot wholesale with the freshly merged,
sorted list, independent of the previous snapshot. -/
theorem claim8_snapshot_frame (st : PollerState) (manualDb : Option (List ManualCar))
    (now : Int) (favsResult : Option (List Favorite)) (subs : List Int)
    (okU okF : Int → String → Bool) :
    pollCycle st none manualDb now favsResult subs okU okF = (st, []) ∧
      ∀ f : List OfferItem,
        (pollCycle st (some f) manualDb now favsResult subs okU okF).1.cachedOffers =
          sortOffers (f ++ loadManualCars now manualDb) :=
  ⟨rfl, fun _ => rfl⟩

/-- C10: every record of the scraped-offer merge has a non-empty id; a
parsed card whose id could not be extracted is dropped at dedup and never
reaches the snapshot. -/
theorem claim10_nonempty_ids :
    (∀ (l : List OfferItem), ∀ o ∈ dedupOffers l, o.id ≠ "") ∧
      ∀ (now : Int) (results : List (FetchResult × String)) (snap : List OfferItem),
        fetchOffers now results = some snap → ∀ o ∈ snap, o.id ≠ "" := by
  constructor
  · intro l o ho
    exact (dedupGo_mem_spec [] l o ho).1
  · intro now results snap hs o ho
    unfold fetchOffers at hs
    cases hg : gatherOffers now results with
    | none => rw [hg] at hs; exact Option.noConfusion hs
    | some all =>
      rw [hg, Option.map_some'] at hs
      have hsnap : snap = sortOffers (dedupOffers all) := (Option.some.injEq _ _ ▸ hs).symm
      rw [hsnap] at ho
      exact (dedupGo_mem_spec [] all o (mem_sortOffers.mp ho)).1

theorem claim10_witness : smpOff7.id ≠ "" :=
  claim10_nonempty_ids.2 0
    [(FetchResult.resp 200 [smpCardNoId, smpCard7], "AXA")] [smpOff7] (by decide)
    smpOff7 (by decide)

/-- C3: the merged snapshot holds at most one record per id; the record kept
for an id is the first record with that id in the concatenated adapter
outputs (adapters in configured order, so the first adapter wins), and every
non-empty id that occurs in the adapter outputs is represented. -/
theorem claim3_dedup_first_wins (now : Int) (results : List (FetchResult × String))
    (all : List OfferItem) (hg : gatherOffers now results = some all) :
    fetchOffers now results = some (sortOffers (dedupOffers all)) ∧
      (∀ i : String, (sortOffers (dedupOffers all)).countP (fun o => o.id == i) ≤ 1) ∧
      (∀ o ∈ sortOffers (dedupOffers all), all.find? (fun x => x.id == o.id) = some o) ∧
      ∀ i : String, i ≠ "" → (∃ x ∈ all, x.id = i) →
        ∃ o ∈ sortOffers (dedupOffers all), o.id = i := by
  refine ⟨?_, ?_, ?_, ?_⟩
  · unfold fetchOffers
    rw [hg]
    rfl
  · intro i
    rw [(sortOffers_perm (dedupOffers all)).countP_eq]
    exact (dedupGo_countP i [] all).1
  · intro o ho
    exact (dedupGo_mem_spec [] all o (mem_sortOffers.mp ho)).2.2
  · intro i hne hex
    obtain ⟨o, ho, hoid⟩ := dedupGo_exists i [] all hne (List.not_mem_nil _) hex
    exact ⟨o, mem_sortOffers.mpr ho, hoid⟩

theorem claim3_witness :
    fetchOffers 0 [(FetchResult.resp 200 [smpCardA], "AXA"),
        (FetchResult.resp 200 [smpCardB], "REST")] = some (sortOffers (dedupOffers [smpOffA, smpOffB])) ∧
      (sortOffers (dedupOffers [smpOffA, smpOffB])).countP (fun o => o.id == "42") ≤ 1 ∧
      [smpOffA, smpOffB].find? (fun x => x.id == smpOffA.id) = some smpOffA := by
  have h := claim3_dedup_first_wins 0
    [(FetchResult.resp 200 [smpCardA], "AXA"), (FetchResult.resp 200 [smpCardB], "REST")]
    [smpOffA, smpOffB] (by decide)
  refine ⟨h.1, h.2.1 "42", ?_⟩
  exact h.2.2.1 smpOffA (by decide)

/-- C7: a failing adapter (exception or non-200) contributes nothing: the
cycle's merged snapshot is exactly the one the remaining adapters produce,
the merge completes without raising, and every non-empty id from the healthy
adapters is still represented. -/
theorem claim7_partial_failure (now : Int) (pre post : List (FetchResult × String))
    (fr : FetchResult × String) (hfail : isFailure fr.1 = true) :
    fetchOffers now (pre ++ fr :: post) = fetchOffers now (pre ++ post) ∧
      ∀ all, gatherOffers now (pre ++ post) = some all →
        ∃ snap, fetchOffers now (pre ++ fr :: post) = some snap ∧
          ∀ o ∈ all, o.id ≠ "" → ∃ q ∈ snap, q.id = o.id := by
  refine ⟨fetchOffers_failure_skip now fr hfail pre post, ?_⟩
  intro all hall
  refine ⟨sortOffers (dedupOffers all), ?_, ?_⟩
  · rw [fetchOffers_failure_skip now fr hfail pre post]
    unfold fetchOffers
    rw [hall]
    rfl
  · intro o ho hne
    obtain ⟨q, hq, hqid⟩ := dedupGo_exists o.id [] all hne (List.not_mem_nil _) ⟨o, ho, rfl⟩
    exact ⟨q, mem_sortOffers.mpr hq, hqid⟩

theorem claim7_witness :
    fetchOffers 0 [(FetchResult.resp 200 [smpCardP1], "AXA"), (FetchResult.exn, "REST"),
        (FetchResult.resp 200 [smpCardP2], "Allianz")] =
      fetchOffers 0 [(FetchResult.resp 200 [smpCardP1], "AXA"),
        (FetchResult.resp 200 [smpCardP2], "Allianz")] ∧
    ∃ snap, fetchOffers 0 [(FetchResult.resp 200 [smpCardP1], "AXA"), (FetchResult.exn, "REST"),
        (FetchResult.resp 200 [smpCardP2], "Allianz")] = some snap ∧
      ∀ o ∈ [smpOffP1, smpOffP2], o.id ≠ "" → ∃ q ∈ snap, q.id = o.id := by
  have h := claim7_partial_failure 0 [(FetchResult.resp 200 [smpCardP1], "AXA")]
    [(FetchResult.resp 200 [smpCardP2], "Allianz")] (FetchResult.exn, "REST") (by decide)
  exact ⟨h.1, h.2 [smpOffP1, smpOffP2] (by decide)⟩

/-- C1: across any number of consecutive poll cycles, at most one urgent
alert is ever emitted per offer id and at most one favorite alert per
(user, offer) pair; an id or pair already recorded in the notified sets is
never alerted again, whatever the later snapshots look like. -/
theorem claim1_at_most_once (st : PollerState) (inputs : List CycleInput) (u : Int)
    (i : String) :
    cntU i (runCycles st inputs).2 ≤ 1 ∧
      cntF u i (runCycles st inputs).2 ≤ 1 ∧
      (i ∈ st.notified12h → cntU i (runCycles st inputs).2 = 0) ∧
      (favKey u i ∈ st.notified3h → cntF u i (runCycles st inputs).2 = 0) := by
  rcases runCycles_urgent i inputs st with ⟨h1, h2, _, _⟩
  rcases runCycles_fav u i inputs st with ⟨h3, h4, _, _⟩
  exact ⟨h1, h3, h2, h4⟩

theorem claim1_witness :
    cntU "42" (runCycles ⟨[], [], ["42"], ["7:42"]⟩ [smpInp, smpInp]).2 = 0 ∧
      cntF 7 "42" (runCycles ⟨[], [], ["42"], ["7:42"]⟩ [smpInp, smpInp]).2 = 0 :=
  ⟨(claim1_at_most_once ⟨[], [], ["42"], ["7:42"]⟩ [smpInp, smpInp] 7 "42").2.2.1 (by decide),
    (claim1_at_most_once ⟨[], [], ["42"], ["7:42"]⟩ [smpInp, smpInp] 7 "42").2.2.2 (by decide)⟩

/-- C2: after a successful warm start nothing is delivered; every offer of
the warm snapshot below the urgent threshold whose id lacks the manual
prefix is pre-marked in the urgent notified set, every offer whose id has
the manual prefix is not pre-marked, and such a manual offer is alerted on
the very next cycle over the identical snapshot. -/
theorem claim2_restart_asymmetry (f : List OfferItem) (manualDb : Option (List ManualCar))
    (now : Int) (favsResult : Option (List Favorite)) (okF : Int → String → Bool) :
    (warmStart (some f) manualDb now favsResult okF).2 = [] ∧
      (∀ o ∈ sortOffers (f ++ loadManualCars now manualDb),
        o.auction_end_seconds < TWELVE_HOURS → pyStartsWith o.id "manual_" = false →
          o.id ∈ (warmStart (some f) manualDb now favsResult okF).1.notified12h) ∧
      (∀ o ∈ sortOffers (f ++ loadManualCars now manualDb),
        pyStartsWith o.id "manual_" = true →
          o.id ∉ (warmStart (some f) manualDb now favsResult okF).1.notified12h) ∧
      ∀ o ∈ sortOffers (f ++ loadManualCars now manualDb),
        pyStartsWith o.id "manual_" = true → o.auction_end_seconds < TWELVE_HOURS →
          ∀ (subs : List Int) (okU okF2 : Int → String → Bool),
            ∃ ds, Notif.urgentAlert o.id ds ∈
              (pollCycle (warmStart (some f) manualDb now favsResult okF).1 (some f) manualDb
                now favsResult subs okU okF2).2 := by
  have hmark : ∀ o ∈ sortOffers (f ++ loadManualCars now manualDb),
      pyStartsWith o.id "manual_" = true →
        o.id ∉ (warmStart (some f) manualDb now favsResult okF).1.notified12h := by
    intro o ho hpre hmem
    rw [warmStart_some] at hmem
    dsimp only at hmem
    obtain ⟨o2, ho2, hid⟩ := List.mem_map.mp hmem
    have hpred := List.of_mem_filter ho2
    simp only [Bool.and_eq_true, Bool.not_eq_true'] at hpred
    rw [hid] at hpred
    rw [hpre] at hpred
    exact Bool.noConfusion hpred.2
  refine ⟨?_, ?_, hmark, ?_⟩
  · rw [warmStart_some]
    exact checkFav3h_noemit okF _ [] favsResult
  · intro o ho hlt hpre
    rw [warmStart_some]
    dsimp only
    refine List.mem_map.mpr ⟨o, List.mem_filter.mpr ⟨ho, ?_⟩, rfl⟩
    rw [hpre]
    simp [hlt]
  · intro o ho hpre hlt subs okU okF2
    exact pollCycle_exists (warmStart (some f) manualDb now favsResult okF).1 f manualDb now
      favsResult subs okU okF2 o ho hlt (hmark o ho hpre)

theorem claim2_witness :
    (warmStart (some [smpOff77]) (some [smpCar]) 0 none (fun _ _ => true)).2 = [] ∧
      "77" ∈ (warmStart (some [smpOff77]) (some [smpCar]) 0 none
        (fun _ _ => true)).1.notified12h ∧
      "manual_1" ∉ (warmStart (some [smpOff77]) (some [smpCar]) 0 none
        (fun _ _ => true)).1.notified12h ∧
      ∃ ds, Notif.urgentAlert "manual_1" ds ∈
        (pollCycle (warmStart (some [smpOff77]) (some [smpCar]) 0 none (fun _ _ => true)).1
          (some [smpOff77]) (some [smpCar]) 0 none [100] (fun _ _ => true)
          (fun _ _ => true)).2 := by
  have h := claim2_restart_asymmetry [smpOff77] (some [smpCar]) 0 none (fun _ _ => true)
  exact ⟨h.1, h.2.1 smpOff77 (by decide) (by decide) (by decide),
    h.2.2.1 smpManOff (by decide) (by decide),
    h.2.2.2 smpManOff (by decide) (by decide) (by decide) [100] (fun _ _ => true)
      (fun _ _ => true)⟩

/-- C9: the state a cycle produces is independent of delivery outcomes (the
id or pair is recorded before the delivery attempt), every alerted id/pair
is recorded in the resulting notified sets, and no later cycle ever retries
it. -/
theorem claim9_mark_before_send (st : PollerState) (fetched : Option (List OfferItem))
    (manualDb : Option (List ManualCar)) (now : Int) (favsResult : Option (List Favorite))
    (subs : List Int) (okU okF : Int → String → Bool) :
    (pollCycle st fetched manualDb now favsResult subs okU okF).1 =
        (pollCycle st fetched manualDb now favsResult subs (fun _ _ => false)
          (fun _ _ => false)).1 ∧
      (∀ (i : String) (ds : List (Int × Bool)),
        Notif.urgentAlert i ds ∈ (pollCycle st fetched manualDb now favsResult subs okU okF).2 →
          i ∈ (pollCycle st fetched manualDb now favsResult subs okU okF).1.notified12h ∧
            ∀ inp2 : CycleInput,
              cntU i (stepCycle (pollCycle st fetched manualDb now favsResult subs okU okF).1
                inp2).2 = 0) ∧
      ∀ (v : Int) (j : String) (d : Bool),
        Notif.favAlert v j d ∈ (pollCycle st fetched manualDb now favsResult subs okU okF).2 →
          favKey v j ∈ (pollCycle st fetched manualDb now favsResult subs okU okF).1.notified3h ∧
            ∀ inp2 : CycleInput,
              cntF v j (stepCycle (pollCycle st fetched manualDb now favsResult subs okU okF).1
                inp2).2 = 0 := by
  refine ⟨pollCycle_indep st fetched manualDb now favsResult subs okU okF
    (fun _ _ => false) (fun _ _ => false), ?_, ?_⟩
  · intro i ds hmem
    have hmark := pollCycle_urgent_mark st fetched manualDb now favsResult subs okU okF i ds hmem
    refine ⟨hmark, fun inp2 => ?_⟩
    rw [stepCycle_eq]
    exact (pollCycle_urgent _ inp2.fetched inp2.manualDb inp2.now inp2.favsResult inp2.subs
      inp2.okU inp2.okF i).2.1 hmark
  · intro v j d hmem
    have hmark := pollCycle_fav_mark st fetched manualDb now favsResult subs okU okF v j d hmem
    refine ⟨hmark, fun inp2 => ?_⟩
    rw [stepCycle_eq]
    exact (pollCycle_fav _ inp2.fetched inp2.manualDb inp2.now inp2.favsResult inp2.subs
      inp2.okU inp2.okF v j).2.1 hmark

theorem claim9_witness :
    "x" ∈ (pollCycle initState (some [smpOffX]) none 0 (some [⟨5, "x"⟩]) [10]
        (fun _ _ => false) (fun _ _ => false)).1.notified12h ∧
      favKey 5 "x" ∈ (pollCycle initState (some [smpOffX]) none 0 (some [⟨5, "x"⟩]) [10]
        (fun _ _ => false) (fun _ _ => false)).1.notified3h := by
  have h := claim9_mark_before_send initState (some [smpOffX]) none 0 (some [⟨5, "x"⟩]) [10]
    (fun _ _ => false) (fun _ _ => false)
  exact ⟨(h.2.1 "x" [(10, false)] (by decide)).1, (h.2.2 5 "x" false (by decide)).1⟩

/-- C5 counterexample: with one malformed-date card and one card ending in
2050 (more than 999999 seconds away), the merged snapshot holds the
sentinel record first and a larger-countdown record last — the
failed-parse record does not sort last. -/
theorem claim5_counterexample :
    fetchOffers smpNow2020 [(FetchResult.resp 200 [smpCardBad, smpCardSlow], "AXA")] =
        some [smpOffBad, smpOffSlow] ∧
      smpOffBad.auction_end_seconds = 999999 ∧
      strptimeDT (pyStrip smpOffBad.auction_end) = none ∧
      999999 < smpOffSlow.auction_end_seconds ∧
      [smpOffBad, smpOffSlow].getLast?.map (fun o => o.auction_end_seconds) ≠
        some 999999 := by
  decide

/-- C5 (amended): an end-time text that fails to parse yields the sentinel
`remainingSeconds = 999999` and the card is still emitted; a sentinel record
sorts after every record with a smaller countdown (it is last unless some
record exceeds the sentinel); and the sentinel crosses neither threshold —
every alert of either tier names a snapshot record strictly below its
threshold, which `999999` never is. -/
theorem claim5_sentinel (now : Int) (text : String)
    (h : strptimeDT (pyStrip text) = none) :
    parseAuctionEnd now text = 999999 ∧
      (∀ (src : String) (c : Card) (t lid : String), c.h3 = some t →
        computeLotId c.auctionId = some lid →
        strptimeDT (pyStrip (procLabels c.labels).2.2) = none →
          ∃ o, parseCard now src c = some (some o) ∧ o.auction_end_seconds = 999999) ∧
      (∀ (l : List OfferItem) (i j : Fin (sortOffers l).length),
        ((sortOffers l).get i).auction_end_seconds = 999999 →
        ((sortOffers l).get j).auction_end_seconds < 999999 → j < i) ∧
      ¬ (999999 : Nat) < TWELVE_HOURS ∧ ¬ (999999 : Nat) < THREE_HOURS ∧
      (∀ (st : PollerState) (fetched : Option (List OfferItem))
        (manualDb : Option (List ManualCar)) (now2 : Int)
        (favsResult : Option (List Favorite)) (subs : List Int)
        (okU okF : Int → String → Bool) (i : String) (ds : List (Int × Bool)),
        Notif.urgentAlert i ds ∈
            (pollCycle st fetched manualDb now2 favsResult subs okU okF).2 →
          ∃ o ∈ (pollCycle st fetched manualDb now2 favsResult subs okU okF).1.cachedOffers,
            o.id = i ∧ o.auction_end_seconds < TWELVE_HOURS) ∧
      ∀ (st : PollerState) (fetched : Option (List OfferItem))
        (manualDb : Option (List ManualCar)) (now2 : Int)
        (favsResult : Option (List Favorite)) (subs : List Int)
        (okU okF : Int → String → Bool) (v : Int) (j : String) (d : Bool),
        Notif.favAlert v j d ∈
            (pollCycle st fetched manualDb now2 favsResult subs okU okF).2 →
          ∃ o ∈ (pollCycle st fetched manualDb now2 favsResult subs okU okF).1.cachedOffers,
            o.id = j ∧ o.auction_end_seconds < THREE_HOURS := by
  refine ⟨parseAuctionEnd_failure now text h, ?_, sortOffers_sentinel_position, by decide,
    by decide, ?_, ?_⟩
  · intro src c t lid hh3 hlid hfailc
    unfold parseCard
    rw [hh3, hlid]
    exact ⟨_, rfl, parseAuctionEnd_failure now _ hfailc⟩
  · intro st fetched manualDb now2 favsResult subs okU okF i ds hmem
    exact pollCycle_urgent_offer st fetched manualDb now2 favsResult subs okU okF i ds hmem
  · intro st fetched manualDb now2 favsResult subs okU okF v j d hmem
    exact pollCycle_fav_offer st fetched manualDb now2 favsResult subs okU okF v j d hmem

theorem claim5_witness :
    parseAuctionEnd 0 "garbage" = 999999 ∧
      (∃ o, parseCard smpNow2020 "AXA" smpCardBad = some (some o) ∧
        o.auction_end_seconds = 999999) ∧
      (⟨0, by decide⟩ : Fin (sortOffers [smpOff77, smpOffBad]).length) <
        ⟨1, by decide⟩ := by
  have h := claim5_sentinel 0 "garbage" (by decide)
  refine ⟨h.1, ?_, ?_⟩
  · have h2 := claim5_sentinel smpNow2020 "not-a-date" (by decide)
    exact h2.2.1 "AXA" smpCardBad "Bad" "9" (by decide) (by decide) (by decide)
  · exact h.2.2.1 [smpOff77, smpOffBad] ⟨1, by decide⟩ ⟨0, by decide⟩ (by decide) (by decide)

/-- C6 counterexample: a card with a title and an id but no image is not
skipped — it contributes a full record (with an empty image URL) to the
adapter's output. -/
theorem claim6_counterexample :
    parseCards 0 "AXA" [⟨some "Audi", some "ID: 123", [], none, none⟩] =
      some [⟨"123", "Audi", "", "", "", "", "", "AXA", 999999⟩] := by
  decide

/-- C6 (amended): only the title is load-bearing at card granularity — a
card without an `h3` is silently skipped while the other cards of the page
are still parsed; a card without an auction-id element is still emitted,
with an empty id; a card without an image is still emitted, with an empty
image URL.  Parsing does not fail in any of these cases. -/
theorem claim6_missing_fields (now : Int) (src : String) :
    (∀ (pre post : List Card) (c : Card), c.h3 = none →
        parseCards now src (pre ++ c :: post) = parseCards now src (pre ++ post)) ∧
      (∀ (t : String) (lbls : List (String × Option String)) (lnk img : Option String),
        (parseCard now src ⟨some t, none, lbls, lnk, img⟩).map
            (Option.map (fun o => o.id)) = some (some "")) ∧
      ∀ (c : Card) (t lid : String), c.h3 = some t → computeLotId c.auctionId = some lid →
        c.imgSrc = none →
        ∃ o, parseCard now src c = some (some o) ∧ o.image_url = "" := by
  refine ⟨?_, ?_, ?_⟩
  · intro pre post c hc
    induction pre with
    | nil =>
      simp only [List.nil_append]
      have hskip : parseCard now src c = some none := by
        unfold parseCard
        rw [hc]
      rw [parseCards, hskip]
      cases hpost : parseCards now src post
      · rfl
      · rfl
    | cons x pre ih =>
      simp only [List.cons_append] at ih ⊢
      rw [parseCards, parseCards, ih]
  · intro t lbls lnk img
    rfl
  · intro c t lid hh3 hlid himg
    unfold parseCard
    rw [hh3, hlid]
    refine ⟨_, rfl, ?_⟩
    simp [himg]

theorem claim6_witness :
    parseCards 0 "AXA" ([smpCard7] ++ (⟨none, none, [], none, none⟩ : Card) :: []) =
        parseCards 0 "AXA" ([smpCard7] ++ []) ∧
      (parseCard 0 "AXA" ⟨some "T", none, [], none, none⟩).map
          (Option.map (fun o => o.id)) = some (some "") ∧
      ∃ o, parseCard 0 "AXA" smpCard7 = some (some o) ∧ o.image_url = "" := by
  have h := claim6_missing_fields 0 "AXA"
  exact ⟨h.1 [smpCard7] [] ⟨none, none, [], none, none⟩ rfl, h.2.1 "T" [] none none,
    h.2.2 smpCard7 "S" "7" rfl (by decide) rfl⟩
